import Mathlib

/-!
Verification development for the PRD audit slice-cache pipeline:
cache key derivation (`compute_slice_inputs_sha`, `compute_global_inputs_sha`),
validity checking (`prd_cache_check.py`), locked cache update
(`prd_cache_update.py`) and distributed-result merge (`prd_audit_merge.py`).

The Python sources are embedded shallowly: parsed JSON documents become the
`JValue` inductive, SHA-256 is implemented directly so that digests of
concrete inputs can be evaluated inside proofs, and each script entry point
becomes a pure function from an explicit input state to its observable
result (exit code, printed classification, written cache document).
-/

/-- A parsed JSON value, as produced by Python json.loads.

Model notes:
* numbers are represented as exact rationals; Python distinguishes int from
  float, but every use in the embedded code (decision counters, slice ids,
  serialization) only depends on the numeric value and on integrality,
  which `q.den = 1` captures for both an int and an integral float;
* objects are association lists in insertion order; json.loads returns
  dicts, so keys are unique in every list that corresponds to a real parse
  (duplicate keys in a raw file are collapsed by json.loads before any of
  the embedded code runs). -/
inductive JValue where
  | null : JValue
  | bool (b : Bool) : JValue
  | num (q : ℚ) : JValue
  | str (s : String) : JValue
  | arr (xs : List JValue) : JValue
  | obj (kvs : List (String × JValue)) : JValue

mutual

def jvalDecEq : (a b : JValue) → Decidable (a = b)
  | .null, .null => isTrue rfl
  | .null, .bool _ => isFalse (fun h => nomatch h)
  | .null, .num _ => isFalse (fun h => nomatch h)
  | .null, .str _ => isFalse (fun h => nomatch h)
  | .null, .arr _ => isFalse (fun h => nomatch h)
  | .null, .obj _ => isFalse (fun h => nomatch h)
  | .bool _, .null => isFalse (fun h => nomatch h)
  | .bool x, .bool y =>
    if h : x = y then isTrue (h ▸ rfl) else isFalse (fun hh => h (JValue.bool.inj hh))
  | .bool _, .num _ => isFalse (fun h => nomatch h)
  | .bool _, .str _ => isFalse (fun h => nomatch h)
  | .bool _, .arr _ => isFalse (fun h => nomatch h)
  | .bool _, .obj _ => isFalse (fun h => nomatch h)
  | .num _, .null => isFalse (fun h => nomatch h)
  | .num _, .bool _ => isFalse (fun h => nomatch h)
  | .num x, .num y =>
    if h : x = y then isTrue (h ▸ rfl) else isFalse (fun hh => h (JValue.num.inj hh))
  | .num _, .str _ => isFalse (fun h => nomatch h)
  | .num _, .arr _ => isFalse (fun h => nomatch h)
  | .num _, .obj _ => isFalse (fun h => nomatch h)
  | .str _, .null => isFalse (fun h => nomatch h)
  | .str _, .bool _ => isFalse (fun h => nomatch h)
  | .str _, .num _ => isFalse (fun h => nomatch h)
  | .str x, .str y =>
    if h : x = y then isTrue (h ▸ rfl) else isFalse (fun hh => h (JValue.str.inj hh))
  | .str _, .arr _ => isFalse (fun h => nomatch h)
  | .str _, .obj _ => isFalse (fun h => nomatch h)
  | .arr _, .null => isFalse (fun h => nomatch h)
  | .arr _, .bool _ => isFalse (fun h => nomatch h)
  | .arr _, .num _ => isFalse (fun h => nomatch h)
  | .arr _, .str _ => isFalse (fun h => nomatch h)
  | .arr xs, .arr ys =>
    match jvalDecEqL xs ys with
    | isTrue h => isTrue (h ▸ rfl)
    | isFalse h => isFalse (fun hh => h (JValue.arr.inj hh))
  | .arr _, .obj _ => isFalse (fun h => nomatch h)
  | .obj _, .null => isFalse (fun h => nomatch h)
  | .obj _, .bool _ => isFalse (fun h => nomatch h)
  | .obj _, .num _ => isFalse (fun h => nomatch h)
  | .obj _, .str _ => isFalse (fun h => nomatch h)
  | .obj _, .arr _ => isFalse (fun h => nomatch h)
  | .obj xs, .obj ys =>
    match jvalDecEqO xs ys with
    | isTrue h => isTrue (h ▸ rfl)
    | isFalse h => isFalse (fun hh => h (JValue.obj.inj hh))

def jvalDecEqL : (a b : List JValue) → Decidable (a = b)
  | [], [] => isTrue rfl
  | [], _ :: _ => isFalse (fun h => nomatch h)
  | _ :: _, [] => isFalse (fun h => nomatch h)
  | x :: xs, y :: ys =>
    match jvalDecEq x y with
    | isFalse h1 => isFalse (fun h => by cases h; exact h1 rfl)
    | isTrue h1 =>
      match jvalDecEqL xs ys with
      | isTrue h2 => isTrue (by rw [h1, h2])
      | isFalse h2 => isFalse (fun h => by cases h; exact h2 rfl)

def jvalDecEqO : (a b : List (String × JValue)) → Decidable (a = b)
  | [], [] => isTrue rfl
  | [], _ :: _ => isFalse (fun h => nomatch h)
  | _ :: _, [] => isFalse (fun h => nomatch h)
  | (k, v) :: xs, (k2, w) :: ys =>
    if hk : k = k2 then
      match jvalDecEq v w with
      | isFalse h1 => isFalse (fun h => by cases h; exact h1 rfl)
      | isTrue h1 =>
        match jvalDecEqO xs ys with
        | isTrue h2 => isTrue (by rw [hk, h1, h2])
        | isFalse h2 => isFalse (fun h => by cases h; exact h2 rfl)
    else isFalse (fun h => by cases h; exact hk rfl)

end

instance : DecidableEq JValue := jvalDecEq

/-- First-match association lookup; on unique-key lists this is Python dict
access. -/
def jlookup (k : String) : List (String × JValue) → Option JValue
  | [] => none
  | (k2, v) :: rest => if k2 = k then some v else jlookup k rest

/-- Python dict.get(k, d). -/
def jgetD (k : String) (d : JValue) (kvs : List (String × JValue)) : JValue :=
  (jlookup k kvs).getD d

/-! ## String order

Python compares strings lexicographically by Unicode code point; the
comparison below implements that order directly (structurally, so concrete
comparisons evaluate inside the kernel). -/

/-- Three-way lexicographic comparison of character lists by code point. -/
def cmpCL : List Char → List Char → Ordering
  | [], [] => .eq
  | [], _ :: _ => .lt
  | _ :: _, [] => .gt
  | a :: s, b :: t =>
    if a.toNat < b.toNat then .lt
    else if b.toNat < a.toNat then .gt
    else cmpCL s t

/-- Python s <= t on strings. -/
def strLe (s t : String) : Bool := cmpCL s.data t.data != .gt

/-- Python s < t on strings. -/
def strLt (s t : String) : Bool := cmpCL s.data t.data == .lt

theorem char_eq_of_toNat_eq {a b : Char} (h : a.toNat = b.toNat) : a = b :=
  Char.ext (UInt32.ext h)

theorem cmpCL_eq_iff : ∀ s t : List Char, cmpCL s t = .eq ↔ s = t
  | [], [] => by simp [cmpCL]
  | [], _ :: _ => by simp [cmpCL]
  | _ :: _, [] => by simp [cmpCL]
  | a :: s, b :: t => by
    unfold cmpCL
    by_cases h1 : a.toNat < b.toNat
    · simp only [if_pos h1]
      constructor
      · intro h; exact nomatch h
      · intro h; cases h; exact absurd h1 (lt_irrefl _)
    · by_cases h2 : b.toNat < a.toNat
      · simp only [if_neg h1, if_pos h2]
        constructor
        · intro h; exact nomatch h
        · intro h; cases h; exact absurd h2 (lt_irrefl _)
      · have hab : a = b := char_eq_of_toNat_eq (by omega)
        simp only [if_neg h1, if_neg h2]
        rw [cmpCL_eq_iff s t]
        subst hab
        constructor
        · intro h; rw [h]
        · intro h; cases h; rfl

theorem cmpCL_swap : ∀ s t : List Char, cmpCL t s = (cmpCL s t).swap
  | [], [] => rfl
  | [], _ :: _ => rfl
  | _ :: _, [] => rfl
  | a :: s, b :: t => by
    unfold cmpCL
    by_cases h1 : a.toNat < b.toNat
    · have h2 : ¬ b.toNat < a.toNat := by omega
      simp [h1, h2, Ordering.swap]
    · by_cases h2 : b.toNat < a.toNat
      · simp [h1, h2, Ordering.swap]
      · simp [h1, h2, cmpCL_swap s t]

theorem cmpCL_le_trans : ∀ s t u : List Char,
    cmpCL s t ≠ .gt → cmpCL t u ≠ .gt → cmpCL s u ≠ .gt
  | [], t, u => by
    intro _ _
    cases u <;> simp [cmpCL]
  | _ :: _, [], _ => by
    intro h1 _
    exact absurd rfl h1
  | _ :: _, _ :: _, [] => by
    intro _ h2
    exact absurd rfl h2
  | a :: s, b :: t, c :: u => by
    intro h1 h2
    unfold cmpCL at *
    by_cases hab1 : a.toNat < b.toNat
    · by_cases hbc1 : b.toNat < c.toNat
      · have hac : a.toNat < c.toNat := by omega
        simp [hac]
      · by_cases hbc2 : c.toNat < b.toNat
        · simp [hbc1, hbc2] at h2
        · have hac : a.toNat < c.toNat := by omega
          simp [hac]
    · by_cases hab2 : b.toNat < a.toNat
      · simp [hab1, hab2] at h1
      · by_cases hbc1 : b.toNat < c.toNat
        · have hac : a.toNat < c.toNat := by omega
          simp [hac]
        · by_cases hbc2 : c.toNat < b.toNat
          · simp [hbc1, hbc2] at h2
          · have hac1 : ¬ a.toNat < c.toNat := by omega
            have hac2 : ¬ c.toNat < a.toNat := by omega
            simp only [if_neg hab1, if_neg hab2] at h1
            simp only [if_neg hbc1, if_neg hbc2] at h2
            simp only [if_neg hac1, if_neg hac2]
            exact cmpCL_le_trans s t u h1 h2

theorem strLe_total (s t : String) : strLe s t = true ∨ strLe t s = true := by
  unfold strLe
  cases hc : cmpCL s.data t.data with
  | lt => left; decide
  | eq => left; decide
  | gt =>
    right
    rw [cmpCL_swap s.data t.data, hc]
    decide

theorem strLe_trans {s t u : String} (h1 : strLe s t = true) (h2 : strLe t u = true) :
    strLe s u = true := by
  unfold strLe at *
  have g1 : cmpCL s.data t.data ≠ .gt := by
    intro h; rw [h] at h1; exact absurd h1 (by decide)
  have g2 : cmpCL t.data u.data ≠ .gt := by
    intro h; rw [h] at h2; exact absurd h2 (by decide)
  have g3 := cmpCL_le_trans s.data t.data u.data g1 g2
  cases h : cmpCL s.data u.data with
  | lt => decide
  | eq => decide
  | gt => exact absurd h g3

theorem strLt_of_strLe_of_ne {s t : String} (h1 : strLe s t = true) (h2 : s ≠ t) :
    strLt s t = true := by
  unfold strLe at h1
  unfold strLt
  cases hc : cmpCL s.data t.data with
  | lt => decide
  | eq =>
    exact absurd (String.ext ((cmpCL_eq_iff s.data t.data).mp hc)) h2
  | gt => rw [hc] at h1; exact absurd h1 (by decide)

theorem strLt_asymm {s t : String} (h1 : strLt s t = true) : strLt t s ≠ true := by
  unfold strLt at *
  have e : cmpCL s.data t.data = Ordering.lt := by
    cases h : cmpCL s.data t.data with
    | lt => rfl
    | eq => rw [h] at h1; exact absurd h1 (by decide)
    | gt => rw [h] at h1; exact absurd h1 (by decide)
  rw [cmpCL_swap s.data t.data, e]
  decide

/-- Lower-case hex digit for a nibble. -/
def hexNib (n : Nat) : Char :=
  if n < 10 then Char.ofNat (48 + n) else Char.ofNat (87 + n)

/-- Four-digit hex rendering used by the JSON unicode escapes. -/
def hex4 (n : Nat) : String :=
  String.mk [hexNib (n / 4096 % 16), hexNib (n / 256 % 16),
             hexNib (n / 16 % 16), hexNib (n % 16)]

/-- Escape one character the way json.dumps (ensure_ascii default) does:
printable ASCII other than quote and backslash is kept, the short escapes
are used for the usual control characters, everything else becomes a
unicode escape (a surrogate pair beyond the BMP). -/
def jEscapeChar (c : Char) : String :=
  if c = '"' then "\\\""
  else if c = '\\' then "\\\\"
  else if c = '\n' then "\\n"
  else if c = '\r' then "\\r"
  else if c = '\t' then "\\t"
  else if c.toNat = 8 then "\\b"
  else if c.toNat = 12 then "\\f"
  else if c.toNat < 32 then "\\u" ++ hex4 c.toNat
  else if c.toNat < 127 then String.singleton c
  else if c.toNat < 65536 then "\\u" ++ hex4 c.toNat
  else
    let v := c.toNat - 65536
    "\\u" ++ hex4 (55296 + v / 1024) ++ "\\u" ++ hex4 (56320 + v % 1024)

/-- JSON string literal rendering. -/
def jString (s : String) : String :=
  "\"" ++ String.join (s.data.map jEscapeChar) ++ "\""

/-- Rendering of a JSON number.  Integral values render exactly as Python
does (`json.dumps(2)` and `json.dumps(2.0)` never coincide with any other
value used by the embedded code, and no claim distinguishes an int from an
integral float).  For non-integral values Python prints the shortest
round-tripping float repr; the exact spelling is irrelevant to every stated
property (only equality and inequality of whole serialized documents
matter, and the rendering below is injective on rationals), so the model
uses a simple exact rendering. -/
def numRepr (q : ℚ) : String :=
  if q.den = 1 then toString q.num
  else toString q.num ++ "/" ++ toString q.den

/-- Stable insertion of a key/value pair into a key-sorted list. -/
def insertPair (p : String × JValue) :
    List (String × JValue) → List (String × JValue)
  | [] => [p]
  | q :: qs => if strLe p.1 q.1 then p :: q :: qs else q :: insertPair p qs

/-- Stable sort of object entries by key: the order json.dumps with
sort_keys=True emits them in (keys are unique after a real parse, so
stability never matters there). -/
def sortPairs : List (String × JValue) → List (String × JValue)
  | [] => []
  | p :: ps => insertPair p (sortPairs ps)

mutual

/-- Recursively sort every object level by key.  Serializing the result
without further sorting is exactly json.dumps with sort_keys=True. -/
def sortTree : JValue → JValue
  | .null => .null
  | .bool b => .bool b
  | .num q => .num q
  | .str s => .str s
  | .arr xs => .arr (sortTreeL xs)
  | .obj kvs => .obj (sortPairs (sortTreeO kvs))

def sortTreeL : List JValue → List JValue
  | [] => []
  | x :: xs => sortTree x :: sortTreeL xs

def sortTreeO : List (String × JValue) → List (String × JValue)
  | [] => []
  | (k, v) :: kvs => (k, sortTree v) :: sortTreeO kvs

end

mutual

/-- Serialize a JValue with separators=(",",":") and no whitespace, without
reordering keys (key order is handled by `sortTree`). -/
def serPlain : JValue → String
  | .null => "null"
  | .bool true => "true"
  | .bool false => "false"
  | .num q => numRepr q
  | .str s => jString s
  | .arr xs => "[" ++ serPlainL xs ++ "]"
  | .obj kvs => "\x7b" ++ serPlainO kvs ++ "\x7d"

def serPlainL : List JValue → String
  | [] => ""
  | [x] => serPlain x
  | x :: y :: xs => serPlain x ++ "," ++ serPlainL (y :: xs)

def serPlainO : List (String × JValue) → String
  | [] => ""
  | [(k, v)] => jString k ++ ":" ++ serPlain v
  | (k, v) :: q :: kvs => jString k ++ ":" ++ serPlain v ++ "," ++ serPlainO (q :: kvs)

end

/-- UTF-8 encoding of one character. -/
def utf8Char (c : Char) : List Nat :=
  let n := c.toNat
  if n < 128 then [n]
  else if n < 2048 then [192 + n / 64, 128 + n % 64]
  else if n < 65536 then [224 + n / 4096, 128 + n / 64 % 64, 128 + n % 64]
  else [240 + n / 262144, 128 + n / 4096 % 64, 128 + n / 64 % 64, 128 + n % 64]

/-- UTF-8 encoding of a string as a byte list. -/
def utf8Bytes (s : String) : List Nat :=
  (s.data.map utf8Char).flatten

/-- canonical_json from the cache scripts: json.dumps with sorted keys and
compact separators, encoded as UTF-8 bytes. -/
def canonical_json (j : JValue) : List Nat :=
  utf8Bytes (serPlain (sortTree j))

/-! ## SHA-256, executable -/

/-- Truncate to a 32-bit word. -/
def w32 (n : Nat) : Nat := n % 4294967296

/-- Right rotation of a 32-bit word. -/
def rotr32 (n w : Nat) : Nat := w32 ((w >>> n) ||| (w <<< (32 - n)))

def shaCh (x y z : Nat) : Nat := (x &&& y) ^^^ ((x ^^^ 4294967295) &&& z)

def shaMaj (x y z : Nat) : Nat := (x &&& y) ^^^ (x &&& z) ^^^ (y &&& z)

def bigSigma0 (x : Nat) : Nat := rotr32 2 x ^^^ rotr32 13 x ^^^ rotr32 22 x

def bigSigma1 (x : Nat) : Nat := rotr32 6 x ^^^ rotr32 11 x ^^^ rotr32 25 x

def smallSigma0 (x : Nat) : Nat := rotr32 7 x ^^^ rotr32 18 x ^^^ (x >>> 3)

def smallSigma1 (x : Nat) : Nat := rotr32 17 x ^^^ rotr32 19 x ^^^ (x >>> 10)

/-- The 64 SHA-256 round constants. -/
def shaK : List Nat :=
  [1116352408, 1899447441, 3049323471, 3921009573,
   961987163, 1508970993, 2453635748, 2870763221,
   3624381080, 310598401, 607225278, 1426881987,
   1925078388, 2162078206, 2614888103, 3248222580,
   3835390401, 4022224774, 264347078, 604807628,
   770255983, 1249150122, 1555081692, 1996064986,
   2554220882, 2821834349, 2952996808, 3210313671,
   3336571891, 3584528711, 113926993, 338241895,
   666307205, 773529912, 1294757372, 1396182291,
   1695183700, 1986661051, 2177026350, 2456956037,
   2730485921, 2820302411, 3259730800, 3345764771,
   3516065817, 3600352804, 4094571909, 275423344,
   430227734, 506948616, 659060556, 883997877,
   958139571, 1322822218, 1537002063, 1747873779,
   1955562222, 2024104815, 2227730452, 2361852424,
   2428436474, 2756734187, 3204031479, 3329325298]

/-- Big-endian 8-byte rendering of a length in bits. -/
def be64 (n : Nat) : List Nat :=
  [n / 72057594037927936 % 256, n / 281474976710656 % 256,
   n / 1099511627776 % 256, n / 4294967296 % 256,
   n / 16777216 % 256, n / 65536 % 256, n / 256 % 256, n % 256]

/-- SHA-256 message padding. -/
def shaPad (msg : List Nat) : List Nat :=
  let L := msg.length
  msg ++ [128] ++ List.replicate ((64 - ((L + 9) % 64)) % 64) 0 ++ be64 (8 * L)

/-- Split a byte list into 64-byte blocks; the fuel (an upper bound on the
block count) keeps the recursion structural. -/
def toBlocksGo : Nat → List Nat → List (List Nat)
  | 0, _ => []
  | _, [] => []
  | fuel + 1, b :: rest => ((b :: rest).take 64) :: toBlocksGo fuel ((b :: rest).drop 64)

/-- Split a byte list into 64-byte blocks. -/
def toBlocks (l : List Nat) : List (List Nat) := toBlocksGo l.length l

/-- Combine bytes into big-endian 32-bit words. -/
def toWords : List Nat → List Nat
  | b0 :: b1 :: b2 :: b3 :: rest =>
      (((b0 * 256 + b1) * 256 + b2) * 256 + b3) :: toWords rest
  | _ => []

/-- Append the next word of the SHA-256 message schedule. -/
def scheduleStep (w : List Nat) : List Nat :=
  let n := w.length
  w ++ [w32 (smallSigma1 (w.getD (n - 2) 0) + w.getD (n - 7) 0 +
             smallSigma0 (w.getD (n - 15) 0) + w.getD (n - 16) 0)]

/-- Extend the 16 block words to the 64 schedule words. -/
def shaSchedule (w : List Nat) : List Nat :=
  (List.range 48).foldl (fun acc _ => scheduleStep acc) w

/-- SHA-256 compression state. -/
structure Hash8 where
  a : Nat
  b : Nat
  c : Nat
  d : Nat
  e : Nat
  f : Nat
  g : Nat
  h : Nat
deriving DecidableEq

def sha256init : Hash8 :=
  ⟨1779033703, 3144134277, 1013904242, 2773480762,
   1359893119, 2600822924, 528734635, 1541459225⟩

/-- One SHA-256 round. -/
def compressRound (st : Hash8) (kw : Nat × Nat) : Hash8 :=
  let t1 := w32 (st.h + bigSigma1 st.e + shaCh st.e st.f st.g + kw.1 + kw.2)
  let t2 := w32 (bigSigma0 st.a + shaMaj st.a st.b st.c)
  ⟨w32 (t1 + t2), st.a, st.b, st.c, w32 (st.d + t1), st.e, st.f, st.g⟩

/-- Compress one 64-byte block into the running state. -/
def compressBlock (st : Hash8) (block : List Nat) : Hash8 :=
  let t := (shaK.zip (shaSchedule (toWords block))).foldl compressRound st
  ⟨w32 (st.a + t.a), w32 (st.b + t.b), w32 (st.c + t.c), w32 (st.d + t.d),
   w32 (st.e + t.e), w32 (st.f + t.f), w32 (st.g + t.g), w32 (st.h + t.h)⟩

/-- SHA-256 of a byte list, as the final eight-word state. -/
def sha256Hash (msg : List Nat) : Hash8 :=
  (toBlocks (shaPad msg)).foldl compressBlock sha256init

/-- Eight lower-case hex characters of one 32-bit word. -/
def wordHexChars (w : Nat) : List Char :=
  [hexNib (w / 268435456 % 16), hexNib (w / 16777216 % 16),
   hexNib (w / 1048576 % 16), hexNib (w / 65536 % 16),
   hexNib (w / 4096 % 16), hexNib (w / 256 % 16),
   hexNib (w / 16 % 16), hexNib (w % 16)]

/-- hashlib.sha256(data).hexdigest(): 64 lower-case hex characters. -/
def sha256hex (msg : List Nat) : String :=
  let H := sha256Hash msg
  String.mk (wordHexChars H.a ++ wordHexChars H.b ++ wordHexChars H.c ++
             wordHexChars H.d ++ wordHexChars H.e ++ wordHexChars H.f ++
             wordHexChars H.g ++ wordHexChars H.h)

/-- sha256_bytes from the cache scripts. -/
def sha256_bytes (data : List Nat) : String := sha256hex data

/-- sha256_file from the cache scripts: a missing file yields the sentinel
ABSENT, a present file the digest of its bytes.  The file system is modeled
by an optional byte content. -/
def sha256_file (content : Option (List Nat)) : String :=
  match content with
  | none => "ABSENT"
  | some bs => sha256hex bs

theorem sha256hex_length (msg : List Nat) : (sha256hex msg).length = 64 := by
  simp [sha256hex, String.length, wordHexChars]

theorem sha256hex_ne_empty (msg : List Nat) : sha256hex msg ≠ "" := by
  intro h
  have h2 := sha256hex_length msg
  rw [h] at h2
  exact absurd h2 (by decide)

/-! ## Python value semantics -/

mutual

/-- Normal form inducing Python equality on parsed JSON values: a boolean
collapses to its integer value (Python bool is an int subclass, so
True == 1 and True and 1 are the same dict key), and object entries are
sorted by key (dict equality ignores insertion order; keys are unique after
a real parse). -/
def pyNorm : JValue → JValue
  | .null => .null
  | .bool b => .num (if b then 1 else 0)
  | .num q => .num q
  | .str s => .str s
  | .arr xs => .arr (pyNormL xs)
  | .obj kvs => .obj (sortPairs (pyNormO kvs))

def pyNormL : List JValue → List JValue
  | [] => []
  | x :: xs => pyNorm x :: pyNormL xs

def pyNormO : List (String × JValue) → List (String × JValue)
  | [] => []
  | (k, v) :: kvs => (k, pyNorm v) :: pyNormO kvs

end

/-- Python == on parsed JSON values. -/
def pyEq (a b : JValue) : Bool := pyNorm a == pyNorm b

/-- ASCII whitespace stripped by Python int(str). -/
def isPyWs (c : Char) : Bool :=
  c = ' ' || c = '\t' || c = '\n' || c = '\r' || c.toNat = 11 || c.toNat = 12

/-- Value of a nonempty all-digit character list. -/
def digitsVal (cs : List Char) : Option Nat :=
  if cs.isEmpty then none
  else if cs.all (fun c => c.isDigit) then
    some (cs.foldl (fun a c => a * 10 + (c.toNat - 48)) 0)
  else none

/-- Python int(s) on a string: strip surrounding whitespace, optional sign,
then decimal digits; anything else raises ValueError (modeled as none).
Not modeled: underscore digit separators and non-ASCII digits, which Python
also accepts. -/
def pyParseInt (s : String) : Option Int :=
  let cs := ((s.data.dropWhile isPyWs).reverse.dropWhile isPyWs).reverse
  match cs with
  | '+' :: rest => (digitsVal rest).map Int.ofNat
  | '-' :: rest => (digitsVal rest).map (fun n => -(n : Int))
  | rest => (digitsVal rest).map Int.ofNat

/-- The inner to_int of extract_decision_from_audit: a Python int (which
includes booleans) is returned as is, a float only when integral, a string
via int(str), everything else is None. -/
def to_int : JValue → Option Int
  | .bool b => some (if b then 1 else 0)
  | .num q => if q.den = 1 then some q.num else none
  | .str s => pyParseInt s
  | _ => none

/-! ## Work items and the slice inputs key -/

/-- One parsed JSON object: a PRD work item or an audit item. -/
abbrev Item := List (String × JValue)

/-- Sort key used by compute_slice_inputs_sha: item.get("id", "").
Model restriction: an id, when present, is a string (the data model
declares ids as strings; on non-string ids Python would sort by the raw
value and crash on mixed types). -/
def itemIdStr (it : Item) : String :=
  match jlookup "id" it with
  | some (.str s) => s
  | _ => ""

/-- dict(item) copy with the volatile passes field popped.  On unique-key
objects removing every "passes" entry equals dict.pop. -/
def stripPasses (it : Item) : Item :=
  it.filter (fun kv => kv.1 != "passes")

/-- Item comparison used for the id sort. -/
def idLe (a b : Item) : Prop := strLe (itemIdStr a) (itemIdStr b) = true

instance : DecidableRel idLe := fun a b => by
  unfold idLe; infer_instance

/-- compute_slice_inputs_sha, identical in prd_cache_check.py and
prd_cache_update.py: sort the items by id (Python sorted is stable, which
insertionSort with a le comparison reproduces exactly), strip passes,
serialize canonically, hash. -/
def compute_slice_inputs_sha (prd_items : List Item) : String :=
  let canonical_items :=
    (List.insertionSort idLe prd_items).map (fun it => JValue.obj (stripPasses it))
  sha256_bytes (canonical_json (.arr canonical_items))

/-! ## Decision extraction (prd_cache_update.py) -/

/-- The audit JSON as read by extract_decision_from_audit: unreadable or
unparsable (the caught JSONDecodeError/OSError path), or a parsed top-level
object.  A valid non-object top level would crash the script on .get and is
outside the model. -/
inductive AuditState where
  | unreadable : AuditState
  | doc (kvs : List (String × JValue)) : AuditState

/-- audit.get("summary", {}).  A present non-object summary value would
crash Python on the following .get and is folded to the missing-key
default here. -/
def auditSummary (kvs : List (String × JValue)) : List (String × JValue) :=
  match jlookup "summary" kvs with
  | some (.obj s) => s
  | _ => []

/-- extract_decision_from_audit: derive the overall decision from the
summary counters; any unparsable counter gives UNKNOWN. -/
def extract_decision_from_audit : AuditState → String
  | .unreadable => "UNKNOWN"
  | .doc kvs =>
    let summary := auditSummary kvs
    let items_fail := to_int (jgetD "items_fail" (.num 0) summary)
    let items_blocked := to_int (jgetD "items_blocked" (.num 0) summary)
    match items_fail, items_blocked with
    | some f, some b =>
      if f > 0 then "FAIL" else if b > 0 then "BLOCKED" else "PASS"
    | _, _ => "UNKNOWN"

/-! ## Global inputs (both cache scripts) -/

/-- State of a JSON input file: absent, present but unparsable, or parsed
to a top-level object.  A present non-object top level would crash the
scripts on attribute access and is outside the model. -/
inductive JsonFile where
  | absent : JsonFile
  | invalid : JsonFile
  | parsed (doc : List (String × JValue)) : JsonFile

/-- stable_digest_hash: ABSENT for a missing digest file, sys.exit(2) for a
corrupt one, otherwise hash of the canonical JSON with the volatile
generated_at and filtered_from keys popped. -/
def stable_digest_hash : JsonFile → Except Nat String
  | .absent => .ok "ABSENT"
  | .invalid => .error 2
  | .parsed doc =>
    .ok (sha256_bytes (canonical_json (.obj (doc.filter
      (fun kv => kv.1 != "generated_at" && kv.1 != "filtered_from")))))

/-- The fixed global dependency set: five tracked script/contract files
(by their byte content, none when missing) and three digest JSON files. -/
structure GlobalFiles where
  prompt : Option (List Nat)
  workflow_contract : Option (List Nat)
  runner : Option (List Nat)
  validator : Option (List Nat)
  slice_prep : Option (List Nat)
  contract_digest : JsonFile
  plan_digest : JsonFile
  roadmap_digest : JsonFile

/-- The named hash mapping assembled by compute_global_inputs_sha. -/
structure GlobalInputs where
  prompt_sha256 : String
  workflow_contract_sha256 : String
  runner_sha256 : String
  validator_sha256 : String
  slice_prep_sha256 : String
  contract_digest_sha256 : String
  plan_digest_sha256 : String
  roadmap_digest_sha256 : String
deriving DecidableEq

/-- The global_inputs dict as a JSON object, in literal construction
order (canonical_json sorts the keys itself). -/
def globalInputsObj (g : GlobalInputs) : JValue :=
  .obj [("prompt_sha256", .str g.prompt_sha256),
        ("workflow_contract_sha256", .str g.workflow_contract_sha256),
        ("runner_sha256", .str g.runner_sha256),
        ("validator_sha256", .str g.validator_sha256),
        ("slice_prep_sha256", .str g.slice_prep_sha256),
        ("contract_digest_sha256", .str g.contract_digest_sha256),
        ("plan_digest_sha256", .str g.plan_digest_sha256),
        ("roadmap_digest_sha256", .str g.roadmap_digest_sha256)]

/-- compute_global_inputs_sha, identical in both cache scripts.  The three
stable_digest_hash calls run in dict-literal order and a corrupt digest
exits the process with code 2. -/
def compute_global_inputs_sha (gf : GlobalFiles) : Except Nat (String × GlobalInputs) :=
  match stable_digest_hash gf.contract_digest with
  | .error c => .error c
  | .ok cd =>
    match stable_digest_hash gf.plan_digest with
    | .error c => .error c
    | .ok pd =>
      match stable_digest_hash gf.roadmap_digest with
      | .error c => .error c
      | .ok rd =>
        let gi : GlobalInputs :=
          ⟨sha256_file gf.prompt, sha256_file gf.workflow_contract,
           sha256_file gf.runner, sha256_file gf.validator,
           sha256_file gf.slice_prep, cd, pd, rd⟩
        .ok (sha256_bytes (canonical_json (globalInputsObj gi)), gi)

/-! ## PRD loading and slice grouping -/

/-- The PRD work-item source file. -/
inductive PrdState where
  | absent : PrdState
  | invalid : PrdState
  | parsed (doc : List (String × JValue)) : PrdState

/-- prd.get("items", []), keeping the object elements.  Model restriction:
a non-array items value or a non-object element crashes the scripts
(uncaught TypeError/AttributeError) and is outside every claim. -/
def getItems (doc : List (String × JValue)) : List Item :=
  match jlookup "items" doc with
  | some (.arr xs) =>
    xs.filterMap (fun x => match x with | .obj kvs => some kvs | _ => none)
  | _ => []

/-- load_prd_items_by_slice collapses a missing or unparsable PRD to the
empty grouping; the grouping is empty exactly when the item list is. -/
def load_prd_items : PrdState → List Item
  | .parsed doc => getItems doc
  | _ => []

/-- item.get("slice", 0) under the model restriction that a present slice
value is an integral JSON number (the data model declares slices integers;
other values lead to float dict keys or crashes in Python). -/
def itemSlice (it : Item) : Int :=
  match jlookup "slice" it with
  | some (.num q) => q.num
  | _ => 0

/-- The dict group for slice n: the items with that slice, in input
order. -/
def sliceItems (items : List Item) (n : Int) : List Item :=
  items.filter (fun it => itemSlice it == n)

/-- sorted(items_by_slice.keys()). -/
def allSliceIds (items : List Item) : List Int :=
  List.insertionSort (· ≤ ·) (items.map itemSlice).dedup

/-! ## The cache file -/

/-- One slices entry of the cache JSON.  Every field is read through
.get(k, "") by the checker, which makes a missing field and an empty string
indistinguishable; the model stores plain strings accordingly. -/
structure CacheEntry where
  slice_inputs_sha : String
  slice_items : List String
  audit_json : String
  decision : String
  cached_at : String
deriving DecidableEq, Repr

/-- The cache JSON document.  global_inputs_sha is read through
.get(k, ""), collapsing an absent key to the empty string; slices are keyed
by str(slice_num), in bijection with the integers used here.  The version
field is never read by any modeled behavior and is elided. -/
structure CacheDoc where
  global_inputs_sha : String
  global_inputs : Option GlobalInputs
  slices : List (Int × CacheEntry)
deriving DecidableEq

/-- The cache file on disk. -/
inductive CacheState where
  | absent : CacheState
  | invalid : CacheState
  | stored (doc : CacheDoc) : CacheState
deriving DecidableEq

/-- Both scripts fall back to an empty cache when the file is missing or
unparsable. -/
def loadCache : CacheState → CacheDoc
  | .stored doc => doc
  | _ => ⟨"", none, []⟩

/-- Integer-keyed association lookup (dict access on the slices map). -/
def lookupInt {β : Type} (n : Int) : List (Int × β) → Option β
  | [] => none
  | (m, v) :: rest => if m = n then some v else lookupInt n rest

/-! ## prd_cache_check.py classification -/

/-- The per-slice validity conditions from the checker main loop, on the
entry found for the slice (fields defaulted to "" exactly as the chained
.get calls do) and the freshly computed slice inputs sha.  Some reason
means invalid. -/
def classifySlice (fsExists : String → Bool) (entry : Option CacheEntry)
    (currentSha : String) : Option String :=
  let cached_slice_sha := (entry.map (fun e => e.slice_inputs_sha)).getD ""
  let cached_decision := (entry.map (fun e => e.decision)).getD ""
  let cached_audit_path := (entry.map (fun e => e.audit_json)).getD ""
  if cached_slice_sha != currentSha then some "slice_inputs_changed"
  else if cached_decision == "BLOCKED" then some "blocked_not_cacheable"
  else if cached_audit_path == "" || !(fsExists cached_audit_path) then
    some "cached_audit_file_missing"
  else none

/-- The JSON object printed by check. -/
structure CheckOutput where
  global_inputs_sha : String
  global_inputs_changed : Bool
  valid_slices : List Int
  invalid_slices : List Int
  reasons : List (Int × String)
deriving DecidableEq

/-- The per-slice loop of the checker main: append each slice to the
valid list or to the invalid list and the reasons map, in slice order. -/
def classifyLoop (cls : Int → Option String) :
    List Int → List Int × List Int × List (Int × String) →
      List Int × List Int × List (Int × String)
  | [], acc => acc
  | s :: rest, acc =>
    match cls s with
    | some r => classifyLoop cls rest (acc.1, acc.2.1 ++ [s], acc.2.2 ++ [(s, r)])
    | none => classifyLoop cls rest (acc.1 ++ [s], acc.2.1, acc.2.2)

/-- The classification section of the checker main (global invalidation
check, then the per-slice loop in slice order). -/
def checkResult (fsExists : String → Bool) (cache : CacheDoc)
    (currentGlobal : String) (currentSha : Int → String)
    (allSlices : List Int) : CheckOutput :=
  if cache.global_inputs_sha != currentGlobal then
    { global_inputs_sha := currentGlobal, global_inputs_changed := true,
      valid_slices := [], invalid_slices := allSlices,
      reasons := allSlices.map (fun s => (s, "global_inputs_changed")) }
  else
    let res := classifyLoop
      (fun s => classifySlice fsExists (lookupInt s cache.slices) (currentSha s))
      allSlices ([], [], [])
    { global_inputs_sha := currentGlobal, global_inputs_changed := false,
      valid_slices := res.1, invalid_slices := res.2.1, reasons := res.2.2 }

/-- Observable outcome of one check invocation.  check only ever reads;
loadError prints the Failed-to-load JSON (empty slice lists) and exits 1,
fatal is sys.exit from stable_digest_hash with nothing on stdout, ok prints
the result JSON and exits 0. -/
inductive CheckRun where
  | loadError : CheckRun
  | fatal (code : Nat) : CheckRun
  | ok (out : CheckOutput) : CheckRun
deriving DecidableEq

/-- The input state of one check invocation. -/
structure CheckArgs where
  prd : PrdState
  globalFiles : GlobalFiles
  cacheFile : CacheState
  fsExists : String → Bool
  targetSlices : Option (List Int)

/-- The slice list check classifies: every slice grouped from the PRD,
filtered by the --slices argument when given (slices requested but absent
from the PRD are silently dropped by the filter). -/
def requestedSlices (ts : Option (List Int)) (items : List Item) : List Int :=
  match ts with
  | some l => (allSliceIds items).filter (fun s => l.contains s)
  | none => allSliceIds items

/-- prd_cache_check.py main: load and group the PRD (exit 1 when that
yields nothing), restrict to the requested slices, compute the global key
(which exits 2 on a corrupt digest), load the cache leniently, classify. -/
def checkMain (a : CheckArgs) : CheckRun :=
  let items := load_prd_items a.prd
  if items.isEmpty then .loadError
  else
    match compute_global_inputs_sha a.globalFiles with
    | .error c => .fatal c
    | .ok (gsha, _) =>
      .ok (checkResult a.fsExists (loadCache a.cacheFile) gsha
        (fun n => compute_slice_inputs_sha (sliceItems items n))
        (requestedSlices a.targetSlices items))

/-! ## The checker classification as the specification words it -/

/-- Rule list of the specification for one requested slice: no cache entry
or changed slice_inputs_sha, else a stored BLOCKED decision, else a missing
referenced audit artifact (an entry referencing no path has no artifact),
else valid. -/
def specClassifySlice (fsExists : String → Bool) (entry : Option CacheEntry)
    (currentSha : String) : Option String :=
  match entry with
  | none => some "slice_inputs_changed"
  | some e =>
    if e.slice_inputs_sha ≠ currentSha then some "slice_inputs_changed"
    else if e.decision = "BLOCKED" then some "blocked_not_cacheable"
    else if e.audit_json = "" ∨ fsExists e.audit_json = false then
      some "cached_audit_file_missing"
    else none

/-- The classification as the specification words it: when the current
global key differs from the stored one, or none is stored, every requested
slice is invalid with reason global_inputs_changed; otherwise each
requested slice is classified by the first matching rule of
specClassifySlice. -/
def specCheckResult (fsExists : String → Bool) (cache : CacheDoc)
    (currentGlobal : String) (currentSha : Int → String)
    (allSlices : List Int) : CheckOutput :=
  if cache.global_inputs_sha = "" ∨ cache.global_inputs_sha ≠ currentGlobal then
    { global_inputs_sha := currentGlobal, global_inputs_changed := true,
      valid_slices := [], invalid_slices := allSlices,
      reasons := allSlices.map (fun s => (s, "global_inputs_changed")) }
  else
    let res := classifyLoop
      (fun s => specClassifySlice fsExists (lookupInt s cache.slices) (currentSha s))
      allSlices ([], [], [])
    { global_inputs_sha := currentGlobal, global_inputs_changed := false,
      valid_slices := res.1, invalid_slices := res.2.1, reasons := res.2.2 }

/-! ## prd_cache_update.py -/

/-- The update filter item.get("slice") == slice_num: no default here, so a
missing slice field gives None, which never equals an int; Python numeric
and boolean comparison is pyEq. -/
def sliceEqNum (it : Item) (n : Int) : Bool :=
  match jlookup "slice" it with
  | some v => pyEq v (.num (n : ℚ))
  | none => false

/-- The input state of one update invocation. -/
structure UpdateArgs where
  sliceNum : Int
  auditPath : String
  auditExists : Bool
  audit : AuditState
  decisionArg : Option String
  prd : PrdState
  globalFiles : GlobalFiles
  cacheFile : CacheState
  lockOk : Bool
  now : String

/-- args.upper() on the --decision value; ASCII upper-casing, which agrees
with Python on every decision word. -/
def strUpper (s : String) : String := String.mk (s.data.map Char.toUpper)

/-- The decision update acts on: the upper-cased --decision override when
given, else the one extracted from the audit document. -/
def updateDecision (a : UpdateArgs) : String :=
  match a.decisionArg with
  | some s => strUpper s
  | none => extract_decision_from_audit a.audit

def validDecisions : List String := ["PASS", "FAIL", "BLOCKED"]

/-- Dict upsert on the slices map. -/
def upsertInt {β : Type} (n : Int) (v : β) : List (Int × β) → List (Int × β)
  | [] => [(n, v)]
  | (m, w) :: rest => if m = n then (n, v) :: rest else (m, w) :: upsertInt n v rest

/-- Observable outcome of one update invocation: the process exit code and
the resulting on-disk cache file.  The single atomic write happens only at
the end of the success path; every failure leaves the file untouched. -/
structure UpdateResult where
  exit : Nat
  cacheAfter : CacheState
deriving DecidableEq

/-- Update loads the PRD strictly: a missing or unparsable file is fatal
(exit 1), unlike the lenient checker load. -/
def prdLoadUpdate : PrdState → Option (List Item)
  | .parsed doc => some (getItems doc)
  | _ => none

/-- prd_cache_update.py main, in source order: audit file existence, the
decision (override or extracted) and its validation, strict PRD load, the
two hashes computed before locking, lock acquisition (exit 7 when it
fails), lenient cache load, global key overwrite, slice entry upsert,
atomic write. -/
def updateMain (a : UpdateArgs) : UpdateResult :=
  if !a.auditExists then ⟨1, a.cacheFile⟩
  else
    let decision := updateDecision a
    if !(validDecisions.contains decision) then ⟨1, a.cacheFile⟩
    else
      match prdLoadUpdate a.prd with
      | none => ⟨1, a.cacheFile⟩
      | some items =>
        let slice_items := items.filter (fun it => sliceEqNum it a.sliceNum)
        match compute_global_inputs_sha a.globalFiles with
        | .error c => ⟨c, a.cacheFile⟩
        | .ok (gsha, ginputs) =>
          let ssha := compute_slice_inputs_sha slice_items
          if !a.lockOk then ⟨7, a.cacheFile⟩
          else
            let cache := loadCache a.cacheFile
            let entry : CacheEntry :=
              ⟨ssha, slice_items.map itemIdStr, a.auditPath, decision, a.now⟩
            ⟨0, .stored ⟨gsha, some ginputs, upsertInt a.sliceNum entry cache.slices⟩⟩

/-! ## prd_audit_merge.py -/

/-- One discovered audit_slice_N.json shard: slice number from the
filename, and the parse state of its content. -/
inductive ShardState where
  | invalid : ShardState
  | parsed (doc : List (String × JValue)) : ShardState
deriving DecidableEq

/-- Python audit.get(k): a JSON null and a missing key both give None. -/
def pyGet (k : String) (doc : List (String × JValue)) : Option JValue :=
  match jlookup k doc with
  | some .null => none
  | v => v

/-- audit.get("prd_sha256") == s for a digest string s. -/
def shaMatchesStr (v : Option JValue) (s : String) : Bool :=
  match v with
  | some w => pyEq w (.str s)
  | none => false

/-- audit.get("prd_sha256") == slice_prd_sha, where the right side is None
or a digest string: two Nones are equal. -/
def shaMatchesOpt (v : Option JValue) (s? : Option String) : Bool :=
  match v, s? with
  | none, none => true
  | some w, some s => pyEq w (.str s)
  | _, _ => false

/-- audit["inputs"] == inputs against the running baseline value (the
baseline is a real value here; a null on the left reads as None and differs
from any value). -/
def inputsEqBaseline (v : Option JValue) (i : JValue) : Bool :=
  match v with
  | some w => pyEq w i
  | none => false

/-- The per-shard validation loop of merge_slice_audits, in processing
order: malformed JSON aborts, a prd_sha256 matching neither the full PRD
digest nor the meta-derived slice digest aborts, a missing inputs key
aborts, and once a non-null baseline inputs value exists any shard whose
inputs differs from it aborts.  Accepted shard documents accumulate in
order. -/
def validateShards (prdSha : String) (metaSha : Int → Option String) :
    List (Int × ShardState) → Option JValue → List (List (String × JValue)) →
    Except Unit (Option JValue × List (List (String × JValue)))
  | [], inputs, acc => .ok (inputs, acc)
  | (_, .invalid) :: _, _, _ => .error ()
  | (n, .parsed doc) :: rest, inputs, acc =>
    let v := pyGet "prd_sha256" doc
    if !(shaMatchesStr v prdSha) && !(shaMatchesOpt v (metaSha n)) then .error ()
    else if (jlookup "inputs" doc).isNone then .error ()
    else
      match inputs with
      | none => validateShards prdSha metaSha rest (pyGet "inputs" doc) (acc ++ [doc])
      | some i =>
        if !(inputsEqBaseline (pyGet "inputs" doc) i) then .error ()
        else validateShards prdSha metaSha rest (some i) (acc ++ [doc])

/-- Sort order of the merged items: the Python tuple key
(x.get("slice", 0), x.get("id", "")). -/
def mergeKeyLe (a b : Item) : Prop :=
  itemSlice a < itemSlice b ∨
    (itemSlice a = itemSlice b ∧ strLe (itemIdStr a) (itemIdStr b) = true)

instance : DecidableRel mergeKeyLe := fun a b => by
  unfold mergeKeyLe; infer_instance

/-- x.get("status") == s. -/
def statusIs (s : String) (it : Item) : Bool :=
  match jlookup "status" it with
  | some v => pyEq v (.str s)
  | none => false

/-- s.get("global_findings", {}).get(k, []).  Non-object and non-array
values at those keys crash Python and are outside the model. -/
def gfList (k : String) (doc : List (String × JValue)) : List JValue :=
  match jlookup "global_findings" doc with
  | some (.obj gf) =>
    match jlookup k gf with
    | some (.arr xs) => xs
    | _ => []
  | _ => []

/-- The summary object the merge writes. -/
structure Summary where
  items_total : Nat
  items_pass : Nat
  items_fail : Nat
  items_blocked : Nat
  must_fix_count : Nat
deriving DecidableEq

/-- The merged audit document. -/
structure MergedDoc where
  project : JValue
  prd_sha256 : String
  inputs : Option JValue
  summary : Summary
  must_fix : List JValue
  risk : List JValue
  improvements : List JValue
  items : List Item
deriving DecidableEq

/-- merge_slice_audits after validation: concatenate the shard item lists,
sort by (slice, id) (Python list.sort is stable, as is insertionSort with a
le comparison), recount the summary by scanning the merged list, append the
global findings in shard order, and assemble the document from the first
shard's project, the full-PRD digest and the shared inputs. -/
def merge_slice_audits (prdBytes : List Nat) (shards : List (Int × ShardState))
    (metaSha : Int → Option String) : Except Unit MergedDoc :=
  let prdSha := sha256hex prdBytes
  match validateShards prdSha metaSha shards none [] with
  | .error _ => .error ()
  | .ok (inputs, slices) =>
    match slices with
    | [] => .error ()
    | s0 :: _ =>
      let all_items := (slices.map getItems).flatten
      let sorted_items := List.insertionSort mergeKeyLe all_items
      let items_fail := sorted_items.countP (statusIs "FAIL")
      let global_must_fix := (slices.map (gfList "must_fix")).flatten
      .ok
        { project := jgetD "project" (.str "Unknown") s0,
          prd_sha256 := prdSha,
          inputs := inputs,
          summary :=
            { items_total := sorted_items.length,
              items_pass := sorted_items.countP (statusIs "PASS"),
              items_fail := items_fail,
              items_blocked := sorted_items.countP (statusIs "BLOCKED"),
              must_fix_count := items_fail + global_must_fix.length },
          must_fix := global_must_fix,
          risk := (slices.map (gfList "risk")).flatten,
          improvements := (slices.map (gfList "improvements")).flatten,
          items := sorted_items }

/-- The input state of one merge invocation.  shards lists the discovered
audit_slice_N.json files in sorted filename order; prdBytes is the raw byte
content of the PRD file, of which the parsed prd document is the model
counterpart; metaSha is the result of lookup_slice_prd_sha per slice (the
digest of the slice-scoped source a meta file names, when one resolves). -/
structure MergeArgs where
  prd : PrdState
  prdBytes : List Nat
  shards : List (Int × ShardState)
  metaSha : Int → Option String

/-- set of slice numbers in the PRD. -/
def get_expected_slices (items : List Item) : List Int :=
  (items.map itemSlice).dedup

/-- prd_audit_merge.py main: no discovered shards is fatal, an unreadable
or unparsable PRD crashes (uncaught, exit 1), a missing expected slice is
fatal, then merge_slice_audits runs and any ValueError exits 1; on success
the merged document is written.  Every failure happens before the output
write. -/
def mergeMain (a : MergeArgs) : Except Nat MergedDoc :=
  if a.shards.isEmpty then .error 1
  else
    match a.prd with
    | .parsed doc =>
      let expected := get_expected_slices (getItems doc)
      let found := a.shards.map (fun p => p.1)
      if expected.any (fun s => !(found.contains s)) then .error 1
      else
        match merge_slice_audits a.prdBytes a.shards a.metaSha with
        | .error _ => .error 1
        | .ok m => .ok m
    | _ => .error 1

/-! ## Lemmas about the id sort -/

theorem jlookup_stripPasses (k : String) (hk : k ≠ "passes") (it : Item) :
    jlookup k (stripPasses it) = jlookup k it := by
  simp only [stripPasses]
  induction it with
  | nil => rfl
  | cons kv rest ih =>
    rw [List.filter_cons]
    by_cases h : kv.1 = "passes"
    · simp [h, jlookup, Ne.symm hk, ih]
    · by_cases h2 : kv.1 = k
      · simp [h, jlookup, h2, hk]
      · simp [h, jlookup, h2, ih]

theorem itemIdStr_stripPasses (it : Item) :
    itemIdStr (stripPasses it) = itemIdStr it := by
  unfold itemIdStr
  rw [jlookup_stripPasses "id" (by decide) it]

instance : IsTotal Item idLe :=
  ⟨fun a b => strLe_total (itemIdStr a) (itemIdStr b)⟩

instance : IsTrans Item idLe :=
  ⟨fun _ _ _ h1 h2 => strLe_trans h1 h2⟩

/-- Strict id order, used to show sorted outputs with distinct ids are
unique. -/
def idLt (a b : Item) : Prop := strLt (itemIdStr a) (itemIdStr b) = true

instance : IsAntisymm Item idLt :=
  ⟨fun _ _ h1 h2 => absurd h2 (strLt_asymm h1)⟩

theorem insertionSort_eq_of_perm_of_nodup_ids (xs ys : List Item)
    (hp : xs.Perm ys) (hnd : (xs.map itemIdStr).Nodup) :
    List.insertionSort idLe xs = List.insertionSort idLe ys := by
  have pxy : (List.insertionSort idLe xs).Perm (List.insertionSort idLe ys) :=
    ((List.perm_insertionSort idLe xs).trans hp).trans
      (List.perm_insertionSort idLe ys).symm
  have hs1 : List.Sorted idLe (List.insertionSort idLe xs) :=
    List.sorted_insertionSort idLe xs
  have hs2 : List.Sorted idLe (List.insertionSort idLe ys) :=
    List.sorted_insertionSort idLe ys
  have strict : ∀ zs : List Item, List.Sorted idLe zs →
      (zs.map itemIdStr).Nodup → List.Sorted idLt zs := by
    intro zs hs hn
    have hpw : zs.Pairwise (fun a b => itemIdStr a ≠ itemIdStr b) :=
      (List.pairwise_map).mp hn
    exact (hs.and hpw).imp (fun h => strLt_of_strLe_of_ne h.1 h.2)
  have hnd1 : ((List.insertionSort idLe xs).map itemIdStr).Nodup := by
    have : ((List.insertionSort idLe xs).map itemIdStr).Perm (xs.map itemIdStr) :=
      (List.perm_insertionSort idLe xs).map itemIdStr
    exact this.nodup_iff.mpr hnd
  have hnd2 : ((List.insertionSort idLe ys).map itemIdStr).Nodup := by
    have : ((List.insertionSort idLe ys).map itemIdStr).Perm (xs.map itemIdStr) :=
      ((List.perm_insertionSort idLe ys).map itemIdStr).trans (hp.map itemIdStr).symm
    exact this.nodup_iff.mpr hnd
  exact List.eq_of_perm_of_sorted pxy (strict _ hs1 hnd1) (strict _ hs2 hnd2)

theorem insertionSort_map_stripPasses (xs : List Item) :
    (List.insertionSort idLe xs).map stripPasses =
      List.insertionSort idLe (xs.map stripPasses) := by
  refine List.map_insertionSort idLe idLe stripPasses xs ?_
  intro a _ b _
  unfold idLe
  rw [itemIdStr_stripPasses, itemIdStr_stripPasses]

/-! ## Claim C2 -/

/-- C2 counterexample: two items that share the id "a" but differ in
another field hash differently after swapping, because Python sorted is
stable and keeps equal-id items in input order.  The two lists are
permutations of each other, so the claimed permutation invariance fails for
items sharing an id. -/
theorem c2_counterexample :
    ([[("id", JValue.str "a"), ("x", JValue.num 1)],
      [("id", JValue.str "a"), ("x", JValue.num 2)]] : List Item).Perm
      [[("id", JValue.str "a"), ("x", JValue.num 2)],
       [("id", JValue.str "a"), ("x", JValue.num 1)]]
    ∧ compute_slice_inputs_sha
        [[("id", JValue.str "a"), ("x", JValue.num 1)],
         [("id", JValue.str "a"), ("x", JValue.num 2)]]
      ≠ compute_slice_inputs_sha
        [[("id", JValue.str "a"), ("x", JValue.num 2)],
         [("id", JValue.str "a"), ("x", JValue.num 1)]] :=
  ⟨List.Perm.swap _ _ _, by set_option maxRecDepth 10000 in decide⟩

/-- C2, amended: compute_slice_inputs_sha is invariant under any
permutation of the input list provided no two items share an id, and is
invariant under changes that only touch the passes fields, for all items.
(This theorem is the amended claim; the unrestricted permutation clause
fails, see the counterexample.) -/
theorem c2_slice_key_invariance :
    (∀ xs ys : List Item, xs.Perm ys → (xs.map itemIdStr).Nodup →
      compute_slice_inputs_sha xs = compute_slice_inputs_sha ys) ∧
    (∀ xs ys : List Item, xs.map stripPasses = ys.map stripPasses →
      compute_slice_inputs_sha xs = compute_slice_inputs_sha ys) := by
  have e1 : ∀ zs : List Item,
      (List.insertionSort idLe zs).map (fun it => JValue.obj (stripPasses it)) =
        (List.insertionSort idLe (zs.map stripPasses)).map JValue.obj := by
    intro zs
    calc (List.insertionSort idLe zs).map (fun it => JValue.obj (stripPasses it))
        = ((List.insertionSort idLe zs).map stripPasses).map JValue.obj := by
          rw [List.map_map]; rfl
      _ = (List.insertionSort idLe (zs.map stripPasses)).map JValue.obj := by
          rw [insertionSort_map_stripPasses]
  constructor
  · intro xs ys hp hnd
    unfold compute_slice_inputs_sha
    rw [insertionSort_eq_of_perm_of_nodup_ids xs ys hp hnd]
  · intro xs ys h
    unfold compute_slice_inputs_sha
    rw [e1, e1, h]

/-- Witness for c2_slice_key_invariance: a concrete two-item swap with
distinct ids, hashing identically. -/
theorem c2_slice_key_invariance_witness :
    ([[("id", JValue.str "a"), ("passes", JValue.bool true)],
      [("id", JValue.str "b")]] : List Item).Perm
      [[("id", JValue.str "b")],
       [("id", JValue.str "a"), ("passes", JValue.bool true)]]
    ∧ (([[("id", JValue.str "a"), ("passes", JValue.bool true)],
        [("id", JValue.str "b")]] : List Item).map itemIdStr).Nodup
    ∧ compute_slice_inputs_sha
        [[("id", JValue.str "a"), ("passes", JValue.bool true)],
         [("id", JValue.str "b")]]
      = compute_slice_inputs_sha
        [[("id", JValue.str "b")],
         [("id", JValue.str "a"), ("passes", JValue.bool true)]] :=
  ⟨List.Perm.swap _ _ _, by decide,
   c2_slice_key_invariance.1 _ _ (List.Perm.swap _ _ _) (by decide)⟩

/-! ## Claim C5 -/

/-- Counter coercion as the claim words it: numbers coerce when integral,
strings via int(str); every other JSON value, a boolean included, is
non-numeric. -/
def claimToInt : JValue → Option Int
  | .num q => if q.den = 1 then some q.num else none
  | .str s => pyParseInt s
  | _ => none

/-- The decision derivation exactly as the claim states it, with
claimToInt for the counters. -/
def claimC5Decision : AuditState → String
  | .unreadable => "UNKNOWN"
  | .doc kvs =>
    let summary := auditSummary kvs
    match claimToInt (jgetD "items_fail" (.num 0) summary),
        claimToInt (jgetD "items_blocked" (.num 0) summary) with
    | some f, some b =>
      if f > 0 then "FAIL" else if b > 0 then "BLOCKED" else "PASS"
    | _, _ => "UNKNOWN"

/-- C5 counterexample: a boolean counter is a non-numeric JSON value, so
the claim demands UNKNOWN, but Python bool is an int subclass, so the code
reads items_fail = true as 1 and returns FAIL. -/
theorem c5_counterexample :
    extract_decision_from_audit
        (.doc [("summary", JValue.obj [("items_fail", JValue.bool true)])]) = "FAIL"
    ∧ claimC5Decision
        (.doc [("summary", JValue.obj [("items_fail", JValue.bool true)])]) = "UNKNOWN"
    ∧ ("FAIL" : String) ≠ "UNKNOWN" :=
  ⟨rfl, rfl, by decide⟩

/-- C5, amended: the decision derived from the audit summary is FAIL when
items_fail > 0, else BLOCKED when items_blocked > 0, else PASS, with the
counters coerced by to_int (ints, integral floats, numeric strings, and
booleans as 0 or 1 through bool-int subtyping); the decision is UNKNOWN
exactly when the audit is unreadable or some counter fails to coerce. -/
theorem c5_decision_derivation :
    (extract_decision_from_audit .unreadable = "UNKNOWN")
    ∧ (∀ kvs : List (String × JValue), ∀ f b : Int,
        to_int (jgetD "items_fail" (.num 0) (auditSummary kvs)) = some f →
        to_int (jgetD "items_blocked" (.num 0) (auditSummary kvs)) = some b →
        extract_decision_from_audit (.doc kvs) =
          if f > 0 then "FAIL" else if b > 0 then "BLOCKED" else "PASS")
    ∧ (∀ kvs : List (String × JValue),
        to_int (jgetD "items_fail" (.num 0) (auditSummary kvs)) = none ∨
        to_int (jgetD "items_blocked" (.num 0) (auditSummary kvs)) = none →
        extract_decision_from_audit (.doc kvs) = "UNKNOWN") := by
  refine ⟨rfl, ?_, ?_⟩
  · intro kvs f b hf hb
    simp only [extract_decision_from_audit]
    rw [hf, hb]
  · intro kvs h
    simp only [extract_decision_from_audit]
    rcases h with h | h
    · rw [h]
    · rw [h]
      cases to_int (jgetD "items_fail" (.num 0) (auditSummary kvs)) <;> rfl

/-- Witness for c5_decision_derivation: a numeric-string counter parses
and yields FAIL. -/
theorem c5_decision_derivation_witness :
    to_int (jgetD "items_fail" (.num 0)
        (auditSummary [("summary", JValue.obj [("items_fail", JValue.str " 2 ")])]))
      = some 2
    ∧ to_int (jgetD "items_blocked" (.num 0)
        (auditSummary [("summary", JValue.obj [("items_fail", JValue.str " 2 ")])]))
      = some 0
    ∧ extract_decision_from_audit
        (.doc [("summary", JValue.obj [("items_fail", JValue.str " 2 ")])]) =
        if (2 : Int) > 0 then "FAIL" else if (0 : Int) > 0 then "BLOCKED" else "PASS" :=
  ⟨by decide, by decide,
   c5_decision_derivation.2.1 _ 2 0 (by decide) (by decide)⟩

/-! ## Claim C1 -/

theorem compute_slice_inputs_sha_ne_empty (l : List Item) :
    compute_slice_inputs_sha l ≠ "" := by
  unfold compute_slice_inputs_sha sha256_bytes
  exact sha256hex_ne_empty _

theorem classifyLoop_congr (c1 c2 : Int → Option String)
    (l : List Int) (h : ∀ s ∈ l, c1 s = c2 s) :
    ∀ acc, classifyLoop c1 l acc = classifyLoop c2 l acc := by
  induction l with
  | nil => intro acc; rfl
  | cons s rest ih =>
    intro acc
    have hs : c1 s = c2 s := h s (List.mem_cons_self s rest)
    have hrest : ∀ x ∈ rest, c1 x = c2 x := fun x hx => h x (List.mem_cons_of_mem s hx)
    unfold classifyLoop
    rw [hs]
    cases c2 s <;> exact ih hrest _

theorem classifySlice_eq_spec (fsE : String → Bool)
    (entry : Option CacheEntry) (cur : String) (hcur : cur ≠ "") :
    classifySlice fsE entry cur = specClassifySlice fsE entry cur := by
  cases entry with
  | none =>
    have h : (("" : String) != cur) = true := by
      rw [bne_iff_ne]; exact Ne.symm hcur
    simp [classifySlice, specClassifySlice, h]
  | some e =>
    by_cases h1 : e.slice_inputs_sha = cur
    · by_cases h2 : e.decision = "BLOCKED"
      · simp [classifySlice, specClassifySlice, h1, h2]
      · by_cases h3 : e.audit_json = ""
        · simp [classifySlice, specClassifySlice, h1, h2, h3]
        · cases h4 : fsE e.audit_json
          · simp [classifySlice, specClassifySlice, h1, h2, h3, h4]
          · simp [classifySlice, specClassifySlice, h1, h2, h3, h4]
    · simp [classifySlice, specClassifySlice, h1]

/-- C1: on a loaded cache and freshly computed keys (digests of the actual
global byte content and of the per-slice item lists), the checker
classification is exactly the specification rule list: a changed or absent
stored global key invalidates every requested slice with
global_inputs_changed, and otherwise each requested slice falls through
missing-entry/changed-sha, then BLOCKED, then missing-artifact, else
valid. -/
theorem c1_check_classification (fsE : String → Bool) (cache : CacheDoc)
    (gBytes : List Nat) (itemsOf : Int → List Item) (allSlices : List Int) :
    checkResult fsE cache (sha256hex gBytes)
        (fun n => compute_slice_inputs_sha (itemsOf n)) allSlices =
      specCheckResult fsE cache (sha256hex gBytes)
        (fun n => compute_slice_inputs_sha (itemsOf n)) allSlices := by
  unfold checkResult specCheckResult
  by_cases hg : cache.global_inputs_sha = sha256hex gBytes
  · have hb : (cache.global_inputs_sha != sha256hex gBytes) = false := by simp [hg]
    have hp : ¬ (cache.global_inputs_sha = "" ∨
        cache.global_inputs_sha ≠ sha256hex gBytes) := by
      rw [hg]
      simp [sha256hex_ne_empty]
    have hloop := classifyLoop_congr
      (fun s => classifySlice fsE (lookupInt s cache.slices)
        (compute_slice_inputs_sha (itemsOf s)))
      (fun s => specClassifySlice fsE (lookupInt s cache.slices)
        (compute_slice_inputs_sha (itemsOf s)))
      allSlices
      (fun s _ => classifySlice_eq_spec _ _ _ (compute_slice_inputs_sha_ne_empty _))
      ([], [], [])
    simp only [hb, Bool.false_eq_true, if_false, if_neg hp, hloop]
  · have hb : (cache.global_inputs_sha != sha256hex gBytes) = true := by
      rw [bne_iff_ne]; exact hg
    have hp : cache.global_inputs_sha = "" ∨
        cache.global_inputs_sha ≠ sha256hex gBytes := Or.inr hg
    simp only [hb, if_true, if_pos hp]

/-! ## Claim C10 -/

/-- C10: a WorkItem source that parses but yields no items (items key
absent, or an empty items array, so no slice has a member) is treated
exactly like an unloadable source: the same error result (error JSON with
empty slice lists, exit 1) as for a missing source. -/
theorem c10_empty_prd_like_unloadable (gf : GlobalFiles) (cs : CacheState)
    (fsE : String → Bool) (ts : Option (List Int)) (doc : List (String × JValue))
    (h : jlookup "items" doc = none ∨ jlookup "items" doc = some (.arr [])) :
    checkMain ⟨.parsed doc, gf, cs, fsE, ts⟩ = .loadError
    ∧ checkMain ⟨.absent, gf, cs, fsE, ts⟩ = .loadError := by
  constructor
  · rcases h with h | h <;> simp [checkMain, load_prd_items, getItems, h]
  · rfl

/-- Witness for c10_empty_prd_like_unloadable: a PRD with an empty items
array. -/
theorem c10_empty_prd_like_unloadable_witness :
    (jlookup "items" [("items", JValue.arr [])] = none ∨
      jlookup "items" [("items", JValue.arr [])] = some (.arr []))
    ∧ checkMain ⟨.parsed [("items", JValue.arr [])],
        ⟨none, none, none, none, none, .absent, .absent, .absent⟩,
        .absent, fun _ => false, none⟩ = .loadError
    ∧ checkMain ⟨.absent,
        ⟨none, none, none, none, none, .absent, .absent, .absent⟩,
        .absent, fun _ => false, none⟩ = .loadError :=
  ⟨Or.inr rfl,
   (c10_empty_prd_like_unloadable
     ⟨none, none, none, none, none, .absent, .absent, .absent⟩
     .absent (fun _ => false) none [("items", JValue.arr [])] (Or.inr rfl)).1,
   (c10_empty_prd_like_unloadable
     ⟨none, none, none, none, none, .absent, .absent, .absent⟩
     .absent (fun _ => false) none [("items", JValue.arr [])] (Or.inr rfl)).2⟩

/-! ## Claim C9 -/

theorem stable_digest_hash_error_code (j : JsonFile) (c : Nat)
    (h : stable_digest_hash j = .error c) : c = 2 := by
  cases j <;> simp [stable_digest_hash] at h
  omega

theorem compute_global_error_code (gf : GlobalFiles) (c : Nat)
    (h : compute_global_inputs_sha gf = .error c) : c = 2 := by
  unfold compute_global_inputs_sha at h
  cases h1 : stable_digest_hash gf.contract_digest with
  | error c1 =>
    rw [h1] at h
    have e1 := stable_digest_hash_error_code _ _ h1
    simp at h
    omega
  | ok cd =>
    rw [h1] at h
    cases h2 : stable_digest_hash gf.plan_digest with
    | error c2 =>
      rw [h2] at h
      have e2 := stable_digest_hash_error_code _ _ h2
      simp at h
      omega
    | ok pd =>
      rw [h2] at h
      cases h3 : stable_digest_hash gf.roadmap_digest with
      | error c3 =>
        rw [h3] at h
        have e3 := stable_digest_hash_error_code _ _ h3
        simp at h
        omega
      | ok rd =>
        rw [h3] at h
        simp at h

/-- C9 counterexample: with a loadable WorkItem source but a corrupt
tracked digest file, check exits fatally with code 2 (from
stable_digest_hash), contradicting the claim that an unloadable source is
the only fatal condition. -/
theorem c9_counterexample :
    (load_prd_items (.parsed [("items", JValue.arr [.obj [("id", JValue.str "a")]])])).isEmpty
      = false
    ∧ checkMain ⟨.parsed [("items", JValue.arr [.obj [("id", JValue.str "a")]])],
        ⟨none, none, none, none, none, .invalid, .absent, .absent⟩,
        .absent, fun _ => false, none⟩ = .fatal 2
    ∧ (2 : Nat) ≠ 0 :=
  ⟨by decide, rfl, by decide⟩

/-- C9, amended: check writes nothing and has exactly two fatal
conditions: an unloadable or empty WorkItem source exits 1 with the error
JSON, and a present-but-unparsable tracked digest file exits 2; in every
other input state check prints the result JSON and exits 0. -/
theorem c9_check_fatal_conditions (a : CheckArgs) :
    ((load_prd_items a.prd).isEmpty = true → checkMain a = .loadError)
    ∧ (∀ c, (load_prd_items a.prd).isEmpty = false →
        compute_global_inputs_sha a.globalFiles = .error c →
        checkMain a = .fatal c ∧ c = 2)
    ∧ (∀ g, (load_prd_items a.prd).isEmpty = false →
        compute_global_inputs_sha a.globalFiles = .ok g →
        ∃ out, checkMain a = .ok out) := by
  refine ⟨?_, ?_, ?_⟩
  · intro h
    simp [checkMain, h]
  · intro c h hg
    refine ⟨?_, compute_global_error_code a.globalFiles c hg⟩
    simp [checkMain, h, hg]
  · intro g h hg
    obtain ⟨g1, g2⟩ := g
    refine ⟨checkResult a.fsExists (loadCache a.cacheFile) g1
      (fun n => compute_slice_inputs_sha (sliceItems (load_prd_items a.prd) n))
      (requestedSlices a.targetSlices (load_prd_items a.prd)), ?_⟩
    simp [checkMain, h, hg]

/-- Witness for c9_check_fatal_conditions: the corrupt-digest conjunct at
a concrete state. -/
theorem c9_check_fatal_conditions_witness :
    checkMain ⟨.parsed [("items", JValue.arr [.obj [("id", JValue.str "b")]])],
        ⟨none, none, none, none, none, .absent, .invalid, .absent⟩,
        .absent, fun _ => false, none⟩ = .fatal 2 ∧ (2 : Nat) = 2 :=
  (c9_check_fatal_conditions _).2.1 2 (by decide) rfl

/-! ## Claim C3 -/

theorem lookupInt_upsert {β : Type} (n : Int) (v : β) (l : List (Int × β)) :
    lookupInt n (upsertInt n v l) = some v := by
  induction l with
  | nil => simp [upsertInt, lookupInt]
  | cons p rest ih =>
    obtain ⟨m, w⟩ := p
    by_cases h : m = n
    · simp [upsertInt, h, lookupInt]
    · simp [upsertInt, h, lookupInt, ih]

/-- C3: an invocation whose decision (upper-cased override, or the one
derived from the audit) lies outside PASS/FAIL/BLOCKED exits nonzero with
the cache file untouched, and every successful update leaves a slice entry
whose decision is in that set, hence never UNKNOWN. -/
theorem c3_update_rejects_uncacheable (a : UpdateArgs) :
    (updateDecision a ∉ validDecisions →
      (updateMain a).exit ≠ 0 ∧ (updateMain a).cacheAfter = a.cacheFile)
    ∧ ((updateMain a).exit = 0 →
        ∃ doc : CacheDoc, (updateMain a).cacheAfter = .stored doc ∧
          ∃ e : CacheEntry, lookupInt a.sliceNum doc.slices = some e ∧
            e.decision = updateDecision a ∧ e.decision ∈ validDecisions ∧
            e.decision ≠ "UNKNOWN") := by
  constructor
  · intro hd
    cases h1 : a.auditExists with
    | false => simp [updateMain, h1]
    | true => simp [updateMain, h1, hd]
  · intro h0
    cases h1 : a.auditExists with
    | false => simp [updateMain, h1] at h0
    | true =>
      by_cases h2 : updateDecision a ∈ validDecisions
      case neg => simp [updateMain, h1, h2] at h0
      case pos =>
        cases hp : prdLoadUpdate a.prd with
        | none => simp [updateMain, h1, h2, hp] at h0
        | some items =>
          cases hgc : compute_global_inputs_sha a.globalFiles with
          | error c =>
            have hc2 := compute_global_error_code a.globalFiles c hgc
            simp [updateMain, h1, h2, hp, hgc] at h0
            omega
          | ok g =>
            cases hl : a.lockOk with
            | false => simp [updateMain, h1, h2, hp, hgc, hl] at h0
            | true =>
              have hmem : updateDecision a ∈ validDecisions := h2
              have hrun : updateMain a = ⟨0, .stored
                  ⟨g.1, some g.2,
                    upsertInt a.sliceNum
                      ⟨compute_slice_inputs_sha
                          (items.filter (fun it => sliceEqNum it a.sliceNum)),
                        (items.filter (fun it => sliceEqNum it a.sliceNum)).map itemIdStr,
                        a.auditPath, updateDecision a, a.now⟩
                      (loadCache a.cacheFile).slices⟩⟩ := by
                unfold updateMain
                simp [h1, h2, hp, hgc, hl]
              rw [hrun]
              have hmem2 : updateDecision a = "PASS" ∨ updateDecision a = "FAIL" ∨
                  updateDecision a = "BLOCKED" := by
                simpa [validDecisions] using hmem
              refine ⟨_, rfl, _, lookupInt_upsert _ _ _, rfl, hmem, ?_⟩
              rcases hmem2 with h | h | h <;> rw [h] <;> simp

/-- A concrete update invocation whose derived decision is UNKNOWN (the
audit is unreadable and no override is given). -/
def c3wArgs : UpdateArgs :=
  ⟨0, "/a.json", true, .unreadable, none, .parsed [("items", JValue.arr [])],
   ⟨none, none, none, none, none, .absent, .absent, .absent⟩, .absent, true, "t"⟩

/-- Witness for c3_update_rejects_uncacheable: the UNKNOWN decision is
rejected with exit 1 and the cache file untouched. -/
theorem c3_update_rejects_uncacheable_witness :
    updateDecision c3wArgs ∉ validDecisions
    ∧ (updateMain c3wArgs).exit ≠ 0
    ∧ (updateMain c3wArgs).cacheAfter = c3wArgs.cacheFile :=
  ⟨by decide, ((c3_update_rejects_uncacheable c3wArgs).1 (by decide)).1,
   ((c3_update_rejects_uncacheable c3wArgs).1 (by decide)).2⟩

/-! ## Claim C4 -/

/-- valid_slices of a successful check run. -/
def CheckRun.validOf : CheckRun → List Int
  | .ok o => o.valid_slices
  | _ => []

/-- invalid_slices of a successful check run. -/
def CheckRun.invalidOf : CheckRun → List Int
  | .ok o => o.invalid_slices
  | _ => []

/-- reasons of a successful check run. -/
def CheckRun.reasonsOf : CheckRun → List (Int × String)
  | .ok o => o.reasons
  | _ => []

/-- The well-formedness the data model promises: a present slice field
holding an integral number. -/
def hasIntSlice (it : Item) : Bool :=
  match jlookup "slice" it with
  | some (.num q) => q.den == 1
  | _ => false

theorem sliceEq_agree (n : Int) (it : Item) (h : hasIntSlice it = true) :
    sliceEqNum it n = (itemSlice it == n) := by
  unfold hasIntSlice at h
  unfold sliceEqNum itemSlice
  cases hk : jlookup "slice" it with
  | none => rw [hk] at h; exact nomatch h
  | some v =>
    rw [hk] at h
    cases v with
    | num q =>
      have hden : q.den = 1 := by simpa using h
      have hq : (q.num : ℚ) = q := Rat.coe_int_num_of_den_eq_one hden
      by_cases he : q.num = n
      · have hqq : q = (n : ℚ) := by rw [← hq, he]
        simp [pyEq, pyNorm, hqq, he]
      · have hqq : q ≠ (n : ℚ) := by
          rw [← hq]
          exact_mod_cast he
        simp [pyEq, pyNorm, hqq, he]
    | null => exact nomatch h
    | bool b => exact nomatch h
    | str s => exact nomatch h
    | arr xs => exact nomatch h
    | obj kvs => exact nomatch h

theorem filter_slice_agree (items : List Item) (n : Int)
    (hwf : ∀ it ∈ items, hasIntSlice it = true) :
    items.filter (fun it => sliceEqNum it n) = sliceItems items n := by
  unfold sliceItems
  exact List.filter_congr (fun it hit => sliceEq_agree n it (hwf it hit))

theorem classifyLoop_mono (cls : Int → Option String) (l : List Int) (n : Int) :
    ∀ acc : List Int × List Int × List (Int × String),
      n ∈ acc.1 → n ∈ (classifyLoop cls l acc).1 := by
  induction l with
  | nil => intro acc h; exact h
  | cons s rest ih =>
    intro acc h
    simp only [classifyLoop]
    cases hc : cls s with
    | some r => exact ih _ h
    | none => exact ih _ (List.mem_append_left _ h)

theorem classifyLoop_valid_mem (cls : Int → Option String) (l : List Int) (n : Int)
    (hn : n ∈ l) (hcls : cls n = none) :
    ∀ acc, n ∈ (classifyLoop cls l acc).1 := by
  induction l with
  | nil => exact absurd hn (List.not_mem_nil n)
  | cons s rest ih =>
    intro acc
    simp only [classifyLoop]
    by_cases hs : s = n
    · subst hs
      rw [hcls]
      exact classifyLoop_mono cls rest s _
        (List.mem_append_right _ (List.mem_singleton.mpr rfl))
    · have hn2 : n ∈ rest := by
        rcases List.mem_cons.mp hn with h | h
        · exact absurd h.symm hs
        · exact h
      cases hc : cls s with
      | some r => exact ih hn2 _
      | none => exact ih hn2 _

theorem mem_allSliceIds (items : List Item) (n : Int)
    (h : ∃ it ∈ items, itemSlice it = n) : n ∈ allSliceIds items := by
  obtain ⟨it, hit, he⟩ := h
  unfold allSliceIds
  simp only [List.mem_insertionSort, List.mem_dedup]
  exact List.mem_map.mpr ⟨it, hit, he⟩

theorem load_eq_of_prdLoadUpdate {p : PrdState} {items : List Item}
    (h : prdLoadUpdate p = some items) : load_prd_items p = items := by
  cases p with
  | absent => exact absurd h (by simp [prdLoadUpdate])
  | invalid => exact absurd h (by simp [prdLoadUpdate])
  | parsed d =>
    simp only [prdLoadUpdate, Option.some_inj] at h
    simpa [load_prd_items] using h

/-- C4, amended: when every PRD item carries an integral slice field and
the decision recorded by a successful update is PASS or FAIL (BLOCKED is
deliberately never reusable), an update for a slice that has at least one
item, immediately followed by check with every input unchanged (same PRD,
same global files, the cache the update wrote, the audit artifact still
present under its nonempty path), reports that slice valid, and the
slice_inputs_sha the update stored equals the one check computes. -/
theorem c4_roundtrip (a : UpdateArgs) (doc : CacheDoc) (fsE : String → Bool)
    (hwf : ∀ it ∈ load_prd_items a.prd, hasIntSlice it = true)
    (hdec : updateDecision a = "PASS" ∨ updateDecision a = "FAIL")
    (hmem : ∃ it ∈ load_prd_items a.prd, itemSlice it = a.sliceNum)
    (hpath : a.auditPath ≠ "")
    (hfs : fsE a.auditPath = true)
    (hrun : updateMain a = ⟨0, .stored doc⟩) :
    ∃ out, checkMain ⟨a.prd, a.globalFiles, .stored doc, fsE, none⟩ = .ok out
      ∧ a.sliceNum ∈ out.valid_slices
      ∧ ∃ e, lookupInt a.sliceNum doc.slices = some e ∧
          e.slice_inputs_sha =
            compute_slice_inputs_sha (sliceItems (load_prd_items a.prd) a.sliceNum) := by
  cases h1 : a.auditExists with
  | false => simp [updateMain, h1] at hrun
  | true =>
  by_cases h2 : updateDecision a ∈ validDecisions
  case neg => simp [updateMain, h1, h2] at hrun
  case pos =>
  cases hp : prdLoadUpdate a.prd with
  | none => simp [updateMain, h1, h2, hp] at hrun
  | some items =>
  cases hgc : compute_global_inputs_sha a.globalFiles with
  | error c =>
    have hc2 := compute_global_error_code a.globalFiles c hgc
    simp [updateMain, h1, h2, hp, hgc] at hrun
    omega
  | ok g =>
  cases hl : a.lockOk with
  | false => simp [updateMain, h1, h2, hp, hgc, hl] at hrun
  | true =>
  obtain ⟨g1, g2⟩ := g
  have hitems : load_prd_items a.prd = items := load_eq_of_prdLoadUpdate hp
  have hrun2 : updateMain a = ⟨0, .stored
      ⟨g1, some g2,
        upsertInt a.sliceNum
          ⟨compute_slice_inputs_sha
              (items.filter (fun it => sliceEqNum it a.sliceNum)),
            (items.filter (fun it => sliceEqNum it a.sliceNum)).map itemIdStr,
            a.auditPath, updateDecision a, a.now⟩
          (loadCache a.cacheFile).slices⟩⟩ := by
    unfold updateMain
    simp [h1, h2, hp, hgc, hl]
  have hdoc : doc =
      ⟨g1, some g2,
        upsertInt a.sliceNum
          ⟨compute_slice_inputs_sha
              (items.filter (fun it => sliceEqNum it a.sliceNum)),
            (items.filter (fun it => sliceEqNum it a.sliceNum)).map itemIdStr,
            a.auditPath, updateDecision a, a.now⟩
          (loadCache a.cacheFile).slices⟩ := by
    rw [hrun] at hrun2
    exact CacheState.stored.inj (congrArg UpdateResult.cacheAfter hrun2)
  have hfilter : items.filter (fun it => sliceEqNum it a.sliceNum) =
      sliceItems items a.sliceNum := by
    refine filter_slice_agree items a.sliceNum ?_
    rw [← hitems]
    exact hwf
  have hne : (load_prd_items a.prd).isEmpty = false := by
    obtain ⟨it, hit, _⟩ := hmem
    cases hload : load_prd_items a.prd with
    | nil => rw [hload] at hit; exact absurd hit (List.not_mem_nil it)
    | cons x xs => simp
  have hcheck : checkMain ⟨a.prd, a.globalFiles, .stored doc, fsE, none⟩ =
      .ok (checkResult fsE doc g1
        (fun n => compute_slice_inputs_sha (sliceItems (load_prd_items a.prd) n))
        (requestedSlices none (load_prd_items a.prd))) := by
    simp [checkMain, hne, hgc, loadCache]
  have hentry : lookupInt a.sliceNum doc.slices = some
      ⟨compute_slice_inputs_sha (items.filter (fun it => sliceEqNum it a.sliceNum)),
        (items.filter (fun it => sliceEqNum it a.sliceNum)).map itemIdStr,
        a.auditPath, updateDecision a, a.now⟩ := by
    rw [hdoc]
    exact lookupInt_upsert _ _ _
  have hndec : updateDecision a ≠ "BLOCKED" := by
    rcases hdec with h | h <;> rw [h] <;> simp
  have hcls : classifySlice fsE (lookupInt a.sliceNum doc.slices)
      (compute_slice_inputs_sha (sliceItems (load_prd_items a.prd) a.sliceNum)) = none := by
    rw [hentry]
    unfold classifySlice
    rw [hitems, hfilter]
    simp [hndec, hpath, hfs]
  have hglob : (doc.global_inputs_sha != g1) = false := by
    rw [hdoc]
    simp
  have hmem2 : a.sliceNum ∈ requestedSlices none (load_prd_items a.prd) := by
    unfold requestedSlices
    exact mem_allSliceIds _ _ hmem
  refine ⟨_, hcheck, ?_, ?_⟩
  · unfold checkResult
    rw [hglob]
    simp only [Bool.false_eq_true, if_false]
    exact classifyLoop_valid_mem _ _ _ hmem2 hcls _
  · refine ⟨_, hentry, ?_⟩
    rw [hitems, hfilter]

/-- A PRD whose single item has no slice field: the checker groups it
under slice 0 (get("slice", 0)), the update filter (get("slice") == 0)
drops it. -/
def c4xPrdA : PrdState :=
  .parsed [("items", JValue.arr [.obj [("id", JValue.str "a")]])]

def c4xGf : GlobalFiles := ⟨none, none, none, none, none, .absent, .absent, .absent⟩

def c4xUpdA : UpdateArgs :=
  ⟨0, "/a.json", true, .unreadable, some "PASS", c4xPrdA, c4xGf, .absent, true, "t"⟩

/-- A well-formed single-item PRD for slice 1. -/
def c4xPrdB : PrdState :=
  .parsed [("items", JValue.arr
    [.obj [("id", JValue.str "b"), ("slice", JValue.num 1),
           ("passes", JValue.bool false)]])]

/-- Update for slice 1 whose audit derives BLOCKED. -/
def c4xUpdB : UpdateArgs :=
  ⟨1, "/b.json", true, .doc [("summary", JValue.obj [("items_blocked", JValue.num 1)])],
   none, c4xPrdB, c4xGf, .absent, true, "t"⟩

set_option maxRecDepth 100000 in
set_option maxHeartbeats 2000000 in
/-- C4 counterexample: two successful updates immediately followed by
check with no input change where the slice is not reported valid.  First,
an item without a slice field makes update hash an empty slice while check
hashes the grouped item, so check reports slice_inputs_changed.  Second, a
successful BLOCKED update is never reusable, so check reports
blocked_not_cacheable even though nothing changed. -/
theorem c4_counterexample :
    ((updateMain c4xUpdA).exit = 0
      ∧ (checkMain ⟨c4xPrdA, c4xGf, (updateMain c4xUpdA).cacheAfter,
          fun _ => true, none⟩).validOf = []
      ∧ (checkMain ⟨c4xPrdA, c4xGf, (updateMain c4xUpdA).cacheAfter,
          fun _ => true, none⟩).reasonsOf = [(0, "slice_inputs_changed")])
    ∧ ((updateMain c4xUpdB).exit = 0
      ∧ updateDecision c4xUpdB = "BLOCKED"
      ∧ (checkMain ⟨c4xPrdB, c4xGf, (updateMain c4xUpdB).cacheAfter,
          fun _ => true, none⟩).validOf = []
      ∧ (checkMain ⟨c4xPrdB, c4xGf, (updateMain c4xUpdB).cacheAfter,
          fun _ => true, none⟩).reasonsOf = [(1, "blocked_not_cacheable")]) :=
  ⟨⟨by decide, by decide, by decide⟩, ⟨by decide, by decide, by decide, by decide⟩⟩

/-- Update for slice 1 with an explicit PASS override. -/
def c4wArgs : UpdateArgs :=
  ⟨1, "/b.json", true, .unreadable, some "PASS", c4xPrdB, c4xGf, .absent, true, "t"⟩

/-- The cache document that update writes in the witness run. -/
def c4wDoc : CacheDoc :=
  match (updateMain c4wArgs).cacheAfter with
  | .stored d => d
  | _ => ⟨"", none, []⟩

set_option maxRecDepth 100000 in
set_option maxHeartbeats 2000000 in
/-- Witness for c4_roundtrip: a concrete PASS update for slice 1 followed
by check reports slice 1 valid with matching slice_inputs_sha. -/
theorem c4_roundtrip_witness :
    ∃ out, checkMain ⟨c4wArgs.prd, c4wArgs.globalFiles, .stored c4wDoc,
        fun _ => true, none⟩ = .ok out
      ∧ c4wArgs.sliceNum ∈ out.valid_slices
      ∧ ∃ e, lookupInt c4wArgs.sliceNum c4wDoc.slices = some e ∧
          e.slice_inputs_sha =
            compute_slice_inputs_sha
              (sliceItems (load_prd_items c4wArgs.prd) c4wArgs.sliceNum) :=
  c4_roundtrip c4wArgs c4wDoc (fun _ => true) (by decide) (Or.inl (by decide))
    (by decide) (by decide) rfl (by decide)

/-! ## Claims C6 and C7 -/

instance : IsTotal Item mergeKeyLe :=
  ⟨fun a b => by
    unfold mergeKeyLe
    rcases lt_trichotomy (itemSlice a) (itemSlice b) with h | h | h
    · exact Or.inl (Or.inl h)
    · rcases strLe_total (itemIdStr a) (itemIdStr b) with hs | hs
      · exact Or.inl (Or.inr ⟨h, hs⟩)
      · exact Or.inr (Or.inr ⟨h.symm, hs⟩)
    · exact Or.inr (Or.inl h)⟩

instance : IsTrans Item mergeKeyLe :=
  ⟨fun a b c h1 h2 => by
    unfold mergeKeyLe at *
    rcases h1 with h1 | ⟨h1e, h1s⟩ <;> rcases h2 with h2 | ⟨h2e, h2s⟩
    · exact Or.inl (lt_trans h1 h2)
    · exact Or.inl (by rw [← h2e]; exact h1)
    · exact Or.inl (by rw [h1e]; exact h2)
    · exact Or.inr ⟨h1e.trans h2e, strLe_trans h1s h2s⟩⟩

/-- The parsed documents of a shard list, in order. -/
def shardDocs (l : List (Int × ShardState)) : List (List (String × JValue)) :=
  l.filterMap (fun p => match p.2 with | .parsed d => some d | .invalid => none)

instance {ε α : Type} [DecidableEq ε] [DecidableEq α] : DecidableEq (Except ε α) :=
  fun a b =>
  match a, b with
  | .ok x, .ok y =>
    match decEq x y with
    | isTrue h => isTrue (by rw [h])
    | isFalse h => isFalse (fun hh => h (Except.ok.inj hh))
  | .error x, .error y =>
    match decEq x y with
    | isTrue h => isTrue (by rw [h])
    | isFalse h => isFalse (fun hh => h (Except.error.inj hh))
  | .ok _, .error _ => isFalse (fun h => nomatch h)
  | .error _, .ok _ => isFalse (fun h => nomatch h)

theorem validateShards_ok_slices (p : String) (msha : Int → Option String) :
    ∀ (l : List (Int × ShardState)) (inputs : Option JValue) acc i s,
      validateShards p msha l inputs acc = .ok (i, s) → s = acc ++ shardDocs l := by
  intro l
  induction l with
  | nil =>
    intro inputs acc i s h
    simp only [validateShards, Except.ok.injEq, Prod.mk.injEq] at h
    rw [← h.2]
    simp [shardDocs]
  | cons q rest ih =>
    intro inputs acc i s h
    obtain ⟨n, st⟩ := q
    cases st with
    | invalid => exact nomatch h
    | parsed d =>
      simp only [validateShards] at h
      by_cases hsha : (!shaMatchesStr (pyGet "prd_sha256" d) p &&
          !shaMatchesOpt (pyGet "prd_sha256" d) (msha n)) = true
      · rw [if_pos hsha] at h; exact nomatch h
      · rw [if_neg hsha] at h
        by_cases hin : (jlookup "inputs" d).isNone = true
        · rw [if_pos hin] at h; exact nomatch h
        · rw [if_neg hin] at h
          cases hbase : inputs with
          | none =>
            simp only [hbase] at h
            have := ih _ _ _ _ h
            rw [this]
            simp [shardDocs]
          | some b =>
            simp only [hbase] at h
            by_cases hne : (!inputsEqBaseline (pyGet "inputs" d) b) = true
            · rw [if_pos hne] at h; exact nomatch h
            · rw [if_neg hne] at h
              have := ih _ _ _ _ h
              rw [this]
              simp [shardDocs]

/-- C6: the merged summary counters are fresh counts over the merged item
list (length, and status counts), and must_fix_count is the merged
items_fail plus the length of the concatenated must_fix list — independent
of whatever summary objects the shards carry, which the merge never
reads. -/
theorem c6_merge_recounts (prdBytes : List Nat) (shards : List (Int × ShardState))
    (metaSha : Int → Option String) (m : MergedDoc)
    (h : merge_slice_audits prdBytes shards metaSha = .ok m) :
    m.summary.items_total = m.items.length
    ∧ m.summary.items_pass = m.items.countP (statusIs "PASS")
    ∧ m.summary.items_fail = m.items.countP (statusIs "FAIL")
    ∧ m.summary.items_blocked = m.items.countP (statusIs "BLOCKED")
    ∧ m.summary.must_fix_count = m.summary.items_fail + m.must_fix.length := by
  unfold merge_slice_audits at h
  cases hv : validateShards (sha256hex prdBytes) metaSha shards none [] with
  | error e => simp only [hv] at h; exact nomatch h
  | ok r =>
    obtain ⟨inputs, slices⟩ := r
    simp only [hv] at h
    cases slices with
    | nil => exact nomatch h
    | cons s0 rest =>
      have hm := Except.ok.inj h
      rw [← hm]
      exact ⟨rfl, rfl, rfl, rfl, rfl⟩

/-- The shards of the concrete C6 merge run: both carry deliberately wrong
summary.items_pass values. -/
def c6wShards : List (Int × ShardState) :=
  [(1, .parsed [("inputs", JValue.str "i"),
      ("items", JValue.arr [.obj [("slice", JValue.num 1), ("id", JValue.str "a"),
        ("status", JValue.str "PASS")]]),
      ("summary", JValue.obj [("items_pass", JValue.num 99)])]),
   (2, .parsed [("inputs", JValue.str "i"),
      ("items", JValue.arr [.obj [("slice", JValue.num 1), ("id", JValue.str "a"),
        ("status", JValue.str "PASS")],
        .obj [("slice", JValue.num 2), ("id", JValue.str "b"),
        ("status", JValue.str "FAIL")]]),
      ("summary", JValue.obj [("items_pass", JValue.num (-5))])])]

/-- The merged document of the concrete C6 run. -/
def c6wMerged : MergedDoc :=
  match merge_slice_audits [88] c6wShards (fun _ => none) with
  | .ok m => m
  | .error _ => ⟨.null, "", none, ⟨0, 0, 0, 0, 0⟩, [], [], [], []⟩

set_option maxRecDepth 100000 in
set_option maxHeartbeats 2000000 in
/-- Witness for c6_merge_recounts: despite both shards carrying wrong
items_pass summaries, the merged counters equal fresh scans. -/
theorem c6_merge_recounts_witness :
    merge_slice_audits [88] c6wShards (fun _ => none) = .ok c6wMerged
    ∧ c6wMerged.summary.items_pass = c6wMerged.items.countP (statusIs "PASS")
    ∧ c6wMerged.summary.items_fail = c6wMerged.items.countP (statusIs "FAIL")
    ∧ c6wMerged.summary.must_fix_count =
        c6wMerged.summary.items_fail + c6wMerged.must_fix.length :=
  ⟨by decide,
   (c6_merge_recounts [88] c6wShards (fun _ => none) c6wMerged (by decide)).2.1,
   (c6_merge_recounts [88] c6wShards (fun _ => none) c6wMerged (by decide)).2.2.1,
   (c6_merge_recounts [88] c6wShards (fun _ => none) c6wMerged (by decide)).2.2.2.2⟩

/-- C7, amended: the merged items list is the concatenation of all
accepted shards' item lists sorted by (slice, id): a permutation of the
concatenation (so an item occurring in several shards appears once per
occurrence, not once), pairwise ordered by the merge key. -/
theorem c7_merge_items_sorted_concat (prdBytes : List Nat)
    (shards : List (Int × ShardState)) (metaSha : Int → Option String)
    (m : MergedDoc) (h : merge_slice_audits prdBytes shards metaSha = .ok m) :
    m.items.Perm ((shardDocs shards).map getItems).flatten
    ∧ List.Pairwise mergeKeyLe m.items := by
  unfold merge_slice_audits at h
  cases hv : validateShards (sha256hex prdBytes) metaSha shards none [] with
  | error e => simp only [hv] at h; exact nomatch h
  | ok r =>
    obtain ⟨inputs, slices⟩ := r
    have hs : slices = shardDocs shards := by
      simpa using validateShards_ok_slices _ _ _ _ _ _ _ hv
    simp only [hv] at h
    cases slices with
    | nil => exact nomatch h
    | cons s0 rest =>
      have hm := Except.ok.inj h
      rw [← hm]
      constructor
      · rw [← hs]
        exact List.perm_insertionSort mergeKeyLe _
      · exact List.sorted_insertionSort mergeKeyLe _

/-- The C7 shards: the same item occurs in both shards. -/
def c7xShards : List (Int × ShardState) :=
  [(1, .parsed [("inputs", JValue.str "i"),
      ("items", JValue.arr [.obj [("slice", JValue.num 1), ("id", JValue.str "a"),
        ("status", JValue.str "PASS")]])]),
   (2, .parsed [("inputs", JValue.str "i"),
      ("items", JValue.arr [.obj [("slice", JValue.num 1), ("id", JValue.str "a"),
        ("status", JValue.str "PASS")],
        .obj [("slice", JValue.num 2), ("id", JValue.str "b"),
        ("status", JValue.str "FAIL")]])])]

/-- The merged document of the C7 run. -/
def c7xMerged : MergedDoc :=
  match merge_slice_audits [88] c7xShards (fun _ => none) with
  | .ok m => m
  | .error _ => ⟨.null, "", none, ⟨0, 0, 0, 0, 0⟩, [], [], [], []⟩

set_option maxRecDepth 100000 in
set_option maxHeartbeats 2000000 in
/-- C7 counterexample: an item present in two shards appears twice in the
merged items list, not exactly once. -/
theorem c7_counterexample :
    merge_slice_audits [88] c7xShards (fun _ => none) = .ok c7xMerged
    ∧ c7xMerged.items.count
        [("slice", JValue.num 1), ("id", JValue.str "a"),
         ("status", JValue.str "PASS")] = 2
    ∧ (2 : Nat) ≠ 1 :=
  ⟨by decide, by decide, by decide⟩

set_option maxRecDepth 100000 in
set_option maxHeartbeats 2000000 in
/-- Witness for c7_merge_items_sorted_concat at the concrete
duplicate-item run. -/
theorem c7_merge_items_sorted_concat_witness :
    c7xMerged.items.Perm ((shardDocs c7xShards).map getItems).flatten
    ∧ List.Pairwise mergeKeyLe c7xMerged.items :=
  c7_merge_items_sorted_concat [88] c7xShards (fun _ => none) c7xMerged (by decide)

/-! ## Claim C8 -/

theorem pyEq_refl (v : JValue) : pyEq v v = true := by
  simp [pyEq]

theorem pyEq_symm {a b : JValue} (h : pyEq a b = true) : pyEq b a = true := by
  simp only [pyEq, beq_iff_eq] at *
  exact h.symm

theorem pyEq_trans {a b c : JValue} (h1 : pyEq a b = true) (h2 : pyEq b c = true) :
    pyEq a c = true := by
  simp only [pyEq, beq_iff_eq] at *
  exact h1.trans h2

theorem validateShards_ok_each (p : String) (msha : Int → Option String) :
    ∀ (l : List (Int × ShardState)) (inputs : Option JValue) acc res,
      validateShards p msha l inputs acc = .ok res →
      ∀ q ∈ l, ∃ d, q.2 = .parsed d
        ∧ (jlookup "inputs" d).isNone = false
        ∧ (shaMatchesStr (pyGet "prd_sha256" d) p = true ∨
            shaMatchesOpt (pyGet "prd_sha256" d) (msha q.1) = true) := by
  intro l
  induction l with
  | nil => intro inputs acc res h q hq; exact absurd hq (List.not_mem_nil q)
  | cons hd rest ih =>
    intro inputs acc res h q hq
    obtain ⟨n, st⟩ := hd
    cases st with
    | invalid => exact nomatch h
    | parsed d =>
      simp only [validateShards] at h
      by_cases hsha : (!shaMatchesStr (pyGet "prd_sha256" d) p &&
          !shaMatchesOpt (pyGet "prd_sha256" d) (msha n)) = true
      · rw [if_pos hsha] at h; exact nomatch h
      · rw [if_neg hsha] at h
        by_cases hin : (jlookup "inputs" d).isNone = true
        · rw [if_pos hin] at h; exact nomatch h
        · rw [if_neg hin] at h
          have hguard : shaMatchesStr (pyGet "prd_sha256" d) p = true ∨
              shaMatchesOpt (pyGet "prd_sha256" d) (msha n) = true := by
            cases hA : shaMatchesStr (pyGet "prd_sha256" d) p with
            | true => exact Or.inl rfl
            | false =>
              cases hB : shaMatchesOpt (pyGet "prd_sha256" d) (msha n) with
              | true => exact Or.inr rfl
              | false => exact absurd (by rw [hA, hB]; rfl) hsha
          rcases List.mem_cons.mp hq with hq1 | hq2
          · subst hq1
            refine ⟨d, rfl, ?_, hguard⟩
            cases h2 : (jlookup "inputs" d).isNone with
            | false => rfl
            | true => exact absurd h2 hin
          · cases hbase : inputs with
            | none =>
              simp only [hbase] at h
              exact ih _ _ _ h q hq2
            | some b =>
              simp only [hbase] at h
              by_cases hne : (!inputsEqBaseline (pyGet "inputs" d) b) = true
              · rw [if_pos hne] at h; exact nomatch h
              · rw [if_neg hne] at h
                exact ih _ _ _ h q hq2

theorem validateShards_baseline (p : String) (msha : Int → Option String) :
    ∀ (l : List (Int × ShardState)) (b : JValue) acc res,
      validateShards p msha l (some b) acc = .ok res → res.1 = some b := by
  intro l
  induction l with
  | nil =>
    intro b acc res h
    simp only [validateShards, Except.ok.injEq] at h
    rw [← h]
  | cons hd rest ih =>
    intro b acc res h
    obtain ⟨n, st⟩ := hd
    cases st with
    | invalid => exact nomatch h
    | parsed d =>
      simp only [validateShards] at h
      by_cases hsha : (!shaMatchesStr (pyGet "prd_sha256" d) p &&
          !shaMatchesOpt (pyGet "prd_sha256" d) (msha n)) = true
      · rw [if_pos hsha] at h; exact nomatch h
      · rw [if_neg hsha] at h
        by_cases hin : (jlookup "inputs" d).isNone = true
        · rw [if_pos hin] at h; exact nomatch h
        · rw [if_neg hin] at h
          by_cases hne : (!inputsEqBaseline (pyGet "inputs" d) b) = true
          · rw [if_pos hne] at h; exact nomatch h
          · rw [if_neg hne] at h
            exact ih _ _ _ h

theorem validateShards_inputs_consistent (p : String) (msha : Int → Option String) :
    ∀ (l : List (Int × ShardState)) (inputs : Option JValue) acc res,
      validateShards p msha l inputs acc = .ok res →
      ∀ q ∈ l, ∀ d, q.2 = .parsed d → ∀ v, pyGet "inputs" d = some v →
        ∃ b, res.1 = some b ∧ pyEq v b = true := by
  intro l
  induction l with
  | nil => intro inputs acc res h q hq; exact absurd hq (List.not_mem_nil q)
  | cons hd rest ih =>
    intro inputs acc res h q hq d hd2 v hv
    obtain ⟨n, st⟩ := hd
    cases st with
    | invalid => exact nomatch h
    | parsed d0 =>
      simp only [validateShards] at h
      by_cases hsha : (!shaMatchesStr (pyGet "prd_sha256" d0) p &&
          !shaMatchesOpt (pyGet "prd_sha256" d0) (msha n)) = true
      · rw [if_pos hsha] at h; exact nomatch h
      · rw [if_neg hsha] at h
        by_cases hin : (jlookup "inputs" d0).isNone = true
        · rw [if_pos hin] at h; exact nomatch h
        · rw [if_neg hin] at h
          rcases List.mem_cons.mp hq with hq1 | hq2
          · have hdd : d0 = d := by
              have := hq1 ▸ hd2
              exact ShardState.parsed.inj this
            subst hdd
            cases hbase : inputs with
            | none =>
              simp only [hbase] at h
              rw [hv] at h
              have hb := validateShards_baseline p msha rest v _ _ h
              exact ⟨v, hb, pyEq_refl v⟩
            | some b =>
              simp only [hbase] at h
              by_cases hne : (!inputsEqBaseline (pyGet "inputs" d0) b) = true
              · rw [if_pos hne] at h; exact nomatch h
              · rw [if_neg hne] at h
                have hb := validateShards_baseline p msha rest b _ _ h
                have heq : pyEq v b = true := by
                  have hg : inputsEqBaseline (pyGet "inputs" d0) b = true := by
                    simpa using hne
                  rw [hv] at hg
                  simpa [inputsEqBaseline] using hg
                exact ⟨b, hb, heq⟩
          · cases hbase : inputs with
            | none =>
              simp only [hbase] at h
              exact ih _ _ _ h q hq2 d hd2 v hv
            | some b =>
              simp only [hbase] at h
              by_cases hne : (!inputsEqBaseline (pyGet "inputs" d0) b) = true
              · rw [if_pos hne] at h; exact nomatch h
              · rw [if_neg hne] at h
                exact ih _ _ _ h q hq2 d hd2 v hv

theorem merge_ok_validate (prdBytes : List Nat) (shards : List (Int × ShardState))
    (metaSha : Int → Option String) (m : MergedDoc)
    (h : merge_slice_audits prdBytes shards metaSha = .ok m) :
    ∃ res, validateShards (sha256hex prdBytes) metaSha shards none [] = .ok res := by
  unfold merge_slice_audits at h
  cases hv : validateShards (sha256hex prdBytes) metaSha shards none [] with
  | error e => simp only [hv] at h; exact nomatch h
  | ok r => exact ⟨r, rfl⟩

theorem mergeMain_not_err (a : MergeArgs) (h : mergeMain a ≠ .error 1) :
    a.shards.isEmpty = false
    ∧ (∀ doc, a.prd = .parsed doc →
        (get_expected_slices (getItems doc)).any
          (fun s => !((a.shards.map (fun p => p.1)).contains s)) = false)
    ∧ ∃ res, validateShards (sha256hex a.prdBytes) a.metaSha a.shards none [] = .ok res := by
  unfold mergeMain at h
  by_cases hne : a.shards.isEmpty = true
  · rw [if_pos hne] at h; exact absurd rfl h
  · rw [if_neg hne] at h
    cases hprd : a.prd with
    | absent => simp only [hprd] at h; exact absurd rfl h
    | invalid => simp only [hprd] at h; exact absurd rfl h
    | parsed doc =>
      simp only [hprd] at h
      by_cases hmiss : (get_expected_slices (getItems doc)).any
          (fun s => !((a.shards.map (fun p => p.1)).contains s)) = true
      · rw [if_pos hmiss] at h; exact absurd rfl h
      · rw [if_neg hmiss] at h
        refine ⟨by simpa using hne, ?_, ?_⟩
        · intro doc2 hdoc2
          have hde : doc2 = doc := (PrdState.parsed.inj hdoc2).symm
          rw [hde]
          simpa using hmiss
        · cases hm : merge_slice_audits a.prdBytes a.shards a.metaSha with
          | error e => simp only [hm] at h; exact absurd rfl h
          | ok m => exact merge_ok_validate _ _ _ _ hm

/-- C8, amended: each of the following aborts the merge with exit 1 before
any output write: a malformed shard, a shard missing the inputs key, two
shards with present non-null inputs values that differ under Python
equality, a shard whose present prd_sha256 matches neither the full-source
digest nor the meta-derived slice digest, and an expected slice with no
shard file.  (A shard whose prd_sha256 reads as None is accepted when no
meta digest exists, see the counterexample.) -/
theorem c8_merge_abort_conditions (a : MergeArgs) :
    ((∃ q ∈ a.shards, q.2 = .invalid) → mergeMain a = .error 1)
    ∧ ((∃ q ∈ a.shards, ∃ d, q.2 = .parsed d ∧ (jlookup "inputs" d).isNone = true) →
        mergeMain a = .error 1)
    ∧ ((∃ q1 ∈ a.shards, ∃ q2 ∈ a.shards, ∃ d1 d2 v1 v2,
          q1.2 = .parsed d1 ∧ q2.2 = .parsed d2 ∧
          pyGet "inputs" d1 = some v1 ∧ pyGet "inputs" d2 = some v2 ∧
          pyEq v1 v2 = false) → mergeMain a = .error 1)
    ∧ ((∃ q ∈ a.shards, ∃ d, q.2 = .parsed d ∧
          shaMatchesStr (pyGet "prd_sha256" d) (sha256hex a.prdBytes) = false ∧
          shaMatchesOpt (pyGet "prd_sha256" d) (a.metaSha q.1) = false) →
        mergeMain a = .error 1)
    ∧ ((∃ doc, a.prd = .parsed doc ∧
          ∃ s ∈ get_expected_slices (getItems doc),
            s ∉ a.shards.map (fun q => q.1)) → mergeMain a = .error 1) := by
  refine ⟨?_, ?_, ?_, ?_, ?_⟩
  · intro hc
    by_contra hniq
    obtain ⟨_, _, res, hv⟩ := mergeMain_not_err a hniq
    obtain ⟨q, hq, hinv⟩ := hc
    obtain ⟨d, hd, _, _⟩ := validateShards_ok_each _ _ _ _ _ _ hv q hq
    rw [hinv] at hd
    exact nomatch hd
  · intro hc
    by_contra hniq
    obtain ⟨_, _, res, hv⟩ := mergeMain_not_err a hniq
    obtain ⟨q, hq, d, hd, hmiss⟩ := hc
    obtain ⟨d2, hd2, hin, _⟩ := validateShards_ok_each _ _ _ _ _ _ hv q hq
    rw [hd] at hd2
    rw [← ShardState.parsed.inj hd2] at hin
    rw [hmiss] at hin
    exact nomatch hin
  · intro hc
    by_contra hniq
    obtain ⟨_, _, res, hv⟩ := mergeMain_not_err a hniq
    obtain ⟨q1, hq1, q2, hq2, d1, d2, v1, v2, hd1, hd2, hv1, hv2, hne⟩ := hc
    obtain ⟨b1, hb1, he1⟩ :=
      validateShards_inputs_consistent _ _ _ _ _ _ hv q1 hq1 d1 hd1 v1 hv1
    obtain ⟨b2, hb2, he2⟩ :=
      validateShards_inputs_consistent _ _ _ _ _ _ hv q2 hq2 d2 hd2 v2 hv2
    have hbb : b1 = b2 := by
      rw [hb1] at hb2
      exact Option.some.inj hb2
    have : pyEq v1 v2 = true :=
      pyEq_trans he1 (pyEq_symm (hbb ▸ he2))
    rw [hne] at this
    exact nomatch this
  · intro hc
    by_contra hniq
    obtain ⟨_, _, res, hv⟩ := mergeMain_not_err a hniq
    obtain ⟨q, hq, d, hd, hs1, hs2⟩ := hc
    obtain ⟨d2, hd2, _, hguard⟩ := validateShards_ok_each _ _ _ _ _ _ hv q hq
    rw [hd] at hd2
    rw [← ShardState.parsed.inj hd2] at hguard
    rcases hguard with hg | hg
    · rw [hs1] at hg; exact nomatch hg
    · rw [hs2] at hg; exact nomatch hg
  · intro hc
    by_contra hniq
    obtain ⟨hne, hmiss, _⟩ := mergeMain_not_err a hniq
    obtain ⟨doc, hprd, s, hs, hnf⟩ := hc
    have := hmiss doc hprd
    have hany : (get_expected_slices (getItems doc)).any
        (fun t => !((a.shards.map (fun p => p.1)).contains t)) = true := by
      refine List.any_eq_true.mpr ⟨s, hs, ?_⟩
      simpa using hnf
    rw [hany] at this
    exact nomatch this

/-- A shard whose document has no prd_sha256 key at all. -/
def c8xShards : List (Int × ShardState) :=
  [(1, .parsed [("inputs", JValue.str "i"),
    ("items", JValue.arr [.obj [("slice", JValue.num 1), ("id", JValue.str "a"),
      ("status", JValue.str "PASS")]])])]

def c8xArgs : MergeArgs :=
  ⟨.parsed [("items", JValue.arr [.obj [("slice", JValue.num 1),
      ("id", JValue.str "a")]])],
   [88], c8xShards, fun _ => none⟩

def c8xMerged : MergedDoc :=
  match mergeMain c8xArgs with
  | .ok m => m
  | .error _ => ⟨.null, "", none, ⟨0, 0, 0, 0, 0⟩, [], [], [], []⟩

set_option maxRecDepth 100000 in
set_option maxHeartbeats 2000000 in
/-- C8 counterexample: the only shard has no prd_sha256 key and no meta
file names a slice source, so its digest matches neither candidate hash —
yet the merge succeeds and produces output, because Python compares
None != None on the second check. -/
theorem c8_counterexample :
    (shardDocs c8xShards).map (jlookup "prd_sha256") = [none]
    ∧ c8xArgs.metaSha 1 = none
    ∧ mergeMain c8xArgs = .ok c8xMerged :=
  ⟨by decide, rfl, by decide⟩

def c8wShards : List (Int × ShardState) :=
  [(1, .parsed [("inputs", JValue.str "i"), ("items", JValue.arr [])]),
   (2, .parsed [("inputs", JValue.str "j"), ("items", JValue.arr [])])]

def c8wArgs : MergeArgs :=
  ⟨.parsed [("items", JValue.arr [.obj [("slice", JValue.num 1),
      ("id", JValue.str "a")]])],
   [88], c8wShards, fun _ => none⟩

/-- Witness for c8_merge_abort_conditions: two shards with differing
inputs values abort the merge. -/
theorem c8_merge_abort_conditions_witness :
    mergeMain c8wArgs = .error 1 :=
  (c8_merge_abort_conditions c8wArgs).2.2.1
    ⟨(1, .parsed [("inputs", JValue.str "i"), ("items", JValue.arr [])]),
     by decide,
     (2, .parsed [("inputs", JValue.str "j"), ("items", JValue.arr [])]),
     by decide,
     _, _, _, _, rfl, rfl, rfl, rfl, by decide⟩

